import Mathlib

/-!
# QueryMate — Artifact generation, validation and dual-mode execution pipeline

A shallow embedding, in Lean 4, of the core of the QueryMate repository:

* the artifact data contract and the language routing tables
  (`src/app/lib/playground/types.ts`);
* the two sandboxed-execution HTTP handlers: the buffering one
  (`POST /api/playground/execute`) and the streaming one
  (`POST /api/playground/execute/stream`);
* the artifact validator `parseArtifact`, the preview compiler
  `generatePreviewHtml` / `generateReactPreview` / `generateVuePreview`
  and the sanitizer `sanitizeHtml` (`src/app/lib/playground/utils.ts`).

JavaScript strings are modelled as `List Char`.  Remote-sandbox I/O is
modelled with an oracle (`SandboxOracle`) fixing the outcome of each remote
call, and each handler is a pure function that returns both its response and
the list of remote-boundary calls it performed (`SbEvent`), so that claims
about "zero calls to create-environment" or "kill invoked exactly once"
become statements about that event trace.  Thrown JavaScript exceptions are
modelled with `Except`/`Option` results; `try`/`catch`/`finally` blocks are
translated by case analysis on the first failing step.
-/

set_option autoImplicit false
set_option maxRecDepth 100000

namespace QueryMate

/-- Characters of a JavaScript string. -/
abbrev S := List Char

/-- Coerce a Lean string literal to the `List Char` model of JS strings. -/
def chars (s : String) : S := s.data

/-! ## `types.ts` — artifact schema and language routing tables -/

/-- `ArtifactType` from `types.ts`: determines the execution environment. -/
inductive ArtifactType
  | frontend
  | backend
  | hybrid
deriving DecidableEq, Repr

/-- `ArtifactLanguage` from `types.ts`. -/
inductive ArtifactLanguage
  | html
  | css
  | javascript
  | react
  | vue
  | python
  | node
  | bash
deriving DecidableEq, Repr

/-- The string form of a language, as interpolated by the routes. -/
def ArtifactLanguage.asString : ArtifactLanguage → S
  | .html => chars "html"
  | .css => chars "css"
  | .javascript => chars "javascript"
  | .react => chars "react"
  | .vue => chars "vue"
  | .python => chars "python"
  | .node => chars "node"
  | .bash => chars "bash"

/-- `ArtifactFile` from `types.ts`. -/
structure ArtifactFile where
  path : S
  content : S
deriving DecidableEq, Repr

/-- `Artifact` from `types.ts`: the strict LLM output schema. -/
structure Artifact where
  artifact_type : ArtifactType
  language : ArtifactLanguage
  files : List ArtifactFile
  run : Option S
deriving DecidableEq, Repr

/-- Replace the `run` field of an artifact, all other fields unchanged. -/
def Artifact.setRun (a : Artifact) (r : Option S) : Artifact :=
  ⟨a.artifact_type, a.language, a.files, r⟩

/-- `FRONTEND_LANGUAGES` from `types.ts`. -/
def FRONTEND_LANGUAGES : List ArtifactLanguage :=
  [.html, .css, .javascript, .react, .vue]

/-- `BACKEND_LANGUAGES` from `types.ts`. -/
def BACKEND_LANGUAGES : List ArtifactLanguage :=
  [.python, .node, .bash]

/-- `isFrontendLanguage` from `types.ts`. -/
def isFrontendLanguage (lang : ArtifactLanguage) : Bool :=
  FRONTEND_LANGUAGES.contains lang

/-- `isBackendLanguage` from `types.ts`. -/
def isBackendLanguage (lang : ArtifactLanguage) : Bool :=
  BACKEND_LANGUAGES.contains lang

/-! ## String helpers shared by the embedded functions -/

/-- Split a string at every occurrence of `sep` (JS `String.split` with a
single-character separator); the result is always non-empty. -/
def splitOnChar (sep : Char) : S → List S
  | [] => [[]]
  | c :: rest =>
    let r := splitOnChar sep rest
    if c = sep then [] :: r
    else
      match r with
      | [] => [[c]]
      | h :: t => (c :: h) :: t

/-- Join a list of strings with a separator (JS `Array.join`). -/
def joinWith (sep : S) : List S → S
  | [] => []
  | [x] => x
  | x :: xs => x ++ sep ++ joinWith sep xs

/-- The JS whitespace class used by `String.trim` (ASCII part plus NBSP). -/
def isJsWs (c : Char) : Bool :=
  c = ' ' || c = '\t' || c = '\n' || c = '\r' || c = '\x0b' || c = '\x0c' ||
    c.val = 160

/-- JS `String.trim`. -/
def trimJs (s : S) : S :=
  ((s.dropWhile isJsWs).reverse.dropWhile isJsWs).reverse

/-! ## Remote sandbox boundary

The E2B collaborator (`CodeInterpreter.create`, `files.makeDir`,
`files.write`, `runCode`, `kill`) is out of process; we model each call's
outcome with `SandboxOracle` and record each call as an `SbEvent`. -/

/-- Structured error reported by the remote `runCode` call. -/
structure ExecError where
  name : S
  value : S
  traceback : Option S
deriving DecidableEq, Repr

/-- The `logs` channels of a remote execution (`execution.logs?.stdout || []`
defaults a missing channel to the empty list, which is folded into this
model). -/
structure ExecLogs where
  stdout : List S
  stderr : List S
deriving DecidableEq, Repr

/-- The object returned by the remote `runCode` call. -/
structure Execution where
  text : Option S
  error : Option ExecError
  logs : ExecLogs
deriving DecidableEq, Repr

/-- Outcomes of the remote-boundary calls for one request.  `Except.error m`
models the corresponding `await` throwing with message `m`. -/
structure SandboxOracle where
  createOk : Except S Unit
  writeOk : S → Except S Unit
  runResult : Except S Execution

/-- One observable call across the remote-sandbox boundary. -/
inductive SbEvent
  | createEnv
  | makeDir (path : S)
  | writeFile (path : S)
  | runCode (code : S) (lang : S)
  | kill
deriving DecidableEq, Repr

/-- `StreamedExecutionChunk.type` from `types.ts`. -/
inductive ChunkType
  | stdout
  | stderr
  | error
  | status
  | done
deriving DecidableEq, Repr

/-- A streamed execution chunk.  The `timestamp` field (`Date.now()`) is
wall-clock and not modelled. -/
structure Chunk where
  type : ChunkType
  content : S
deriving DecidableEq, Repr

/-- The directory part of a path:
`file.path.split("/").slice(0, -1).join("/")`. -/
def dirOf (path : S) : S :=
  joinWith (chars "/") ((splitOnChar '/' path).dropLast)

/-- `writeFilesToSandbox` (both routes): for each file, `makeDir` on the
directory part when it is non-empty (its failure is swallowed by
`.catch(() => \x7b\x7d)`), then `files.write`; a throwing write aborts the
loop.  Returns the event trace and the first write error, if any. -/
def writeFilesTrace (o : SandboxOracle) : List ArtifactFile → List SbEvent × Option S
  | [] => ([], none)
  | f :: rest =>
    let dirPath := dirOf f.path
    let dirEvents := if dirPath = [] then [] else [SbEvent.makeDir dirPath]
    match o.writeOk f.path with
    | .error e => (dirEvents ++ [SbEvent.writeFile f.path], some e)
    | .ok _ =>
      let r := writeFilesTrace o rest
      (dirEvents ++ SbEvent.writeFile f.path :: r.1, r.2)

/-- The language string passed to the remote `runCode` call:
`artifact.language === "node" ? "js" : "python"` (both routes). -/
def e2bLang (lang : ArtifactLanguage) : S :=
  if lang = ArtifactLanguage.node then chars "js" else chars "python"

/-! ## `POST /api/playground/execute/stream` (streaming route) -/

/-- The chunks the streaming route emits after a successful `runCode` call:
the unified `text` payload if truthy, then the stdout log lines, the stderr
log lines, at most one `error` chunk (plus a traceback `stderr` chunk), and
the terminal `done` chunk. -/
def streamRunChunks (ex : Execution) : List Chunk :=
  (match ex.text with
    | some t => if t = [] then [] else [Chunk.mk .stdout t]
    | none => []) ++
  ex.logs.stdout.map (fun l => Chunk.mk .stdout l) ++
  ex.logs.stderr.map (fun l => Chunk.mk .stderr l) ++
  (match ex.error with
    | some err =>
      Chunk.mk .error (err.name ++ chars ": " ++ err.value) ::
        (match err.traceback with
          | some tb => [Chunk.mk .stderr tb]
          | none => [])
    | none => []) ++
  [Chunk.mk .done
    (match ex.error with
      | some _ => chars "Execution failed"
      | none => chars "Execution complete")]

/-- The two chunks the `catch` branch of the stream body emits. -/
def streamCatchChunks (msg : S) : List Chunk :=
  [Chunk.mk .error msg, Chunk.mk .done (chars "Execution failed")]

/-- The body of the `ReadableStream` started by the streaming route
(`async start(controller)`): the `try`/`catch`/`finally` over sandbox
creation, file writing, `runCode` and `kill`.  Returns the emitted chunk
sequence and the remote-call event trace. -/
def streamRun (o : SandboxOracle) (artifact : Artifact) : List Chunk × List SbEvent :=
  let c0 := [Chunk.mk .status (chars "Creating sandbox...")]
  match o.createOk with
  | .error e => (c0 ++ streamCatchChunks e, [SbEvent.createEnv])
  | .ok _ =>
    let c1 := c0 ++ [Chunk.mk .status (chars "Writing files...")]
    let w := writeFilesTrace o artifact.files
    let ev0 := SbEvent.createEnv :: w.1
    match w.2 with
    | some e => (c1 ++ streamCatchChunks e, ev0 ++ [SbEvent.kill])
    | none =>
      match artifact.files with
      | [] =>
        (c1 ++ streamCatchChunks (chars "No files to execute"), ev0 ++ [SbEvent.kill])
      | mainFile :: _ =>
        let lang := e2bLang artifact.language
        let c2 := c1 ++
          [Chunk.mk .status
            (chars "Executing " ++ artifact.language.asString ++ chars " code...")]
        let ev1 := ev0 ++ [SbEvent.runCode mainFile.content lang]
        match o.runResult with
        | .error e => (c2 ++ streamCatchChunks e, ev1 ++ [SbEvent.kill])
        | .ok ex => (c2 ++ streamRunChunks ex, ev1 ++ [SbEvent.kill])

/-- The request body of the execute routes; `artifact` may be absent. -/
structure ExecBody where
  artifact : Option Artifact

/-- An incoming request: whether `getAuthSession` yielded a user, and the
outcome of `request.json()`. -/
structure ApiRequest where
  authed : Bool
  body : Except S ExecBody

/-- Response of the streaming route: either an early JSON error response or
an SSE stream whose frames carry the chunks. -/
inductive StreamResponse
  | jsonError (status : Nat) (message : S)
  | sse (chunks : List Chunk)

/-- `POST` of `src/app/api/playground/execute/stream/route.ts`. -/
def streamPOST (o : SandboxOracle) (req : ApiRequest) (e2bApiKey : Option S) :
    StreamResponse × List SbEvent :=
  if req.authed = false then (.jsonError 401 (chars "Unauthorized"), [])
  else
    match req.body with
    | .error _ => (.jsonError 400 (chars "Invalid JSON"), [])
    | .ok body =>
      match body.artifact with
      | none => (.jsonError 400 (chars "Artifact is required"), [])
      | some artifact =>
        if artifact.artifact_type == ArtifactType.frontend ||
            isFrontendLanguage artifact.language then
          (.jsonError 400 (chars "Frontend code runs in browser, not E2B"), [])
        else
          match e2bApiKey with
          | none =>
            (.jsonError 500
              (chars "E2B API key not configured. Set E2B_API_KEY or E2B_KEY in .env"), [])
          | some _ =>
            let r := streamRun o artifact
            (.sse r.1, r.2)

/-! ## `POST /api/playground/execute` (buffering route) -/

/-- `ExecutionResult` from `types.ts`.  The `duration` field (wall-clock
`Date.now()` difference) is not modelled. -/
structure ExecutionResult where
  success : Bool
  stdout : S
  stderr : S
  error : Option S
  exitCode : Nat
deriving DecidableEq, Repr

/-- `executeInSandbox` from the buffering route: write the files, run the
first file's content under the selected runtime, accumulate stdout/stderr,
and convert any thrown step into a `success: false` result.  Returns the
result and the remote-call trace (creation and kill live in the caller). -/
def executeInSandbox (o : SandboxOracle) (artifact : Artifact) :
    ExecutionResult × List SbEvent :=
  let w := writeFilesTrace o artifact.files
  match w.2 with
  | some e => (⟨false, [], [], some e, 1⟩, w.1)
  | none =>
    match artifact.files with
    | [] => (⟨false, [], [], some (chars "No files to execute"), 1⟩, w.1)
    | mainFile :: _ =>
      let lang := e2bLang artifact.language
      match o.runResult with
      | .error e => (⟨false, [], [], some e, 1⟩, w.1 ++ [SbEvent.runCode mainFile.content lang])
      | .ok ex =>
        let stdoutAcc :=
          (match ex.text with
            | some t => if t = [] then [] else t ++ chars "\n"
            | none => []) ++
          (ex.logs.stdout.map (fun l => l ++ chars "\n")).foldr (· ++ ·) []
        let stderrAcc :=
          (match ex.error with
            | some err =>
              err.name ++ chars ": " ++ err.value ++
                (match err.traceback with
                  | some tb => chars "\n" ++ tb
                  | none => [])
            | none => []) ++
          (ex.logs.stderr.map (fun l => l ++ chars "\n")).foldr (· ++ ·) []
        (⟨ex.error.isNone, trimJs stdoutAcc, trimJs stderrAcc,
            ex.error.map (fun err => err.value),
            match ex.error with
            | some _ => 1
            | none => 0⟩,
          w.1 ++ [SbEvent.runCode mainFile.content lang])

/-- Response of the buffering route. -/
inductive ExecRouteResponse
  | jsonError (status : Nat) (message : S)
  | ok (success : Bool) (result : ExecutionResult)

/-- `POST` of `src/app/api/playground/execute/route.ts`: auth, body and
artifact checks, the frontend security rejection, API-key check, sandbox
creation, `executeInSandbox`, and the `finally` block that always kills a
created sandbox. -/
def executePOST (o : SandboxOracle) (req : ApiRequest) (e2bApiKey : Option S) :
    ExecRouteResponse × List SbEvent :=
  if req.authed = false then (.jsonError 401 (chars "Unauthorized"), [])
  else
    match req.body with
    | .error e => (.jsonError 500 e, [])
    | .ok body =>
      match body.artifact with
      | none => (.jsonError 400 (chars "Artifact is required"), [])
      | some artifact =>
        if artifact.artifact_type == ArtifactType.frontend ||
            isFrontendLanguage artifact.language then
          (.jsonError 400
            (chars "Frontend code should run in the browser iframe, not E2B. Use artifact_type: \x27backend\x27 for server-side code."), [])
        else
          match e2bApiKey with
          | none =>
            (.jsonError 500
              (chars "E2B API key not configured. Set E2B_API_KEY or E2B_KEY in .env"), [])
          | some _ =>
            match o.createOk with
            | .error e => (.jsonError 500 e, [SbEvent.createEnv])
            | .ok _ =>
              let r := executeInSandbox o artifact
              (.ok r.1.success r.1, SbEvent.createEnv :: r.2 ++ [SbEvent.kill])

/-- Whether a streaming-route response is an error (rejection) response. -/
def StreamResponse.isError : StreamResponse → Bool
  | .jsonError _ _ => true
  | .sse _ => false

/-- Whether a buffering-route response is an error (rejection) response. -/
def ExecRouteResponse.isError : ExecRouteResponse → Bool
  | .jsonError _ _ => true
  | .ok _ _ => false

/-- The `(code, lang)` arguments of the `runCode` events of a trace. -/
def runCodeArgs : List SbEvent → List (S × S)
  | [] => []
  | SbEvent.runCode code lang :: rest => (code, lang) :: runCodeArgs rest
  | _ :: rest => runCodeArgs rest

/-- Count the `done` chunks of a chunk sequence. -/
def doneCount (cs : List Chunk) : Nat :=
  cs.countP (fun c => c.type == ChunkType.done)

/-! ## Concrete inputs used by witnesses and counterexamples -/

/-- A sandbox oracle where every remote call succeeds and `runCode` reports
a clean run. -/
def oracleAllOk : SandboxOracle :=
  ⟨Except.ok (), fun _ => Except.ok (), Except.ok ⟨some (chars "hi"), none, ⟨[], []⟩⟩⟩

/-- A sandbox oracle whose `runCode` call throws. -/
def oracleRunThrows : SandboxOracle :=
  ⟨Except.ok (), fun _ => Except.ok (), Except.error (chars "connection lost")⟩

/-- A frontend HTML artifact (the spec's execution-precondition example). -/
def frontendHtmlArtifact : Artifact :=
  ⟨ArtifactType.frontend, ArtifactLanguage.html,
    [⟨chars "index.html", chars "<h1>hi</h1>"⟩], none⟩

/-- A backend bash artifact with an explicit `run` command. -/
def bashArtifact : Artifact :=
  ⟨ArtifactType.backend, ArtifactLanguage.bash,
    [⟨chars "run.sh", chars "echo hi"⟩], some (chars "bash run.sh")⟩

/-- A backend python artifact. -/
def pythonArtifact : Artifact :=
  ⟨ArtifactType.backend, ArtifactLanguage.python,
    [⟨chars "main.py", chars "print(1)"⟩], none⟩

/-- An authenticated request carrying the given artifact. -/
def reqWith (a : Artifact) : ApiRequest :=
  ⟨true, Except.ok ⟨some a⟩⟩

/-! ## Regex and string machinery for the preview compiler

Each JavaScript regular expression of `utils.ts` is hand-compiled into a
deterministic matcher on `List Char`; greedy/lazy subpattern choices are
resolved the way the backtracking engine resolves them, as noted at each
matcher. -/

/-- Does `s` end with `sfx` (JS `String.endsWith`)? -/
def hasSuffix (s sfx : S) : Bool := sfx.isSuffixOf s

/-- Does `s` contain `pat` as a contiguous substring? -/
def containsSub (pat : S) : S → Bool
  | [] => pat.isEmpty
  | c :: rest => pat.isPrefixOf (c :: rest) || containsSub pat rest

/-- Index of the first occurrence of `pat` in `s` (JS `String.indexOf`,
`-1` becoming `none`). -/
def subIdx (pat : S) : S → Option Nat
  | [] => if pat.isEmpty then some 0 else none
  | c :: rest =>
    if pat.isPrefixOf (c :: rest) then some 0
    else (subIdx pat rest).map (· + 1)

/-- Split at the first occurrence of `pat`: the part before it and the
part after it. -/
def splitAtSub (pat : S) : S → Option (S × S)
  | [] => if pat.isEmpty then some ([], []) else none
  | c :: rest =>
    if pat.isPrefixOf (c :: rest) then some ([], (c :: rest).drop pat.length)
    else (splitAtSub pat rest).map (fun r => (c :: r.1, r.2))

/-- JS `String.replace` with a string pattern: replace the first occurrence
of `pat` by `repl` (the `$`-substitution cases of the replacement string do
not occur in this codebase and are not modelled). -/
def replaceFirst (pat repl s : S) : S :=
  match subIdx pat s with
  | none => s
  | some i => s.take i ++ repl ++ s.drop (i + pat.length)

/-- Index of the first occurrence of character `c` (JS `indexOf`). -/
def idxOfChar (c : Char) : S → Option Nat
  | [] => none
  | d :: rest => if d = c then some 0 else (idxOfChar c rest).map (· + 1)

/-- Index of the last occurrence of character `c` (JS `lastIndexOf`). -/
def lastIdxOfChar (c : Char) (s : S) : Option Nat :=
  (idxOfChar c s.reverse).map (fun i => s.length - 1 - i)

/-- JS `String.slice(i, j)` (for `0 ≤ i ≤ j`; an empty string when
`j ≤ i`). -/
def sliceJs (s : S) (i j : Nat) : S := (s.drop i).take (j - i)

/-- ASCII letter test. -/
def isAsciiAlpha (c : Char) : Bool :=
  ('A' ≤ c && c ≤ 'Z') || ('a' ≤ c && c ≤ 'z')

/-- ASCII upper-case test (the regex class `[A-Z]`). -/
def isAsciiUpper (c : Char) : Bool := 'A' ≤ c && c ≤ 'Z'

/-- The regex class `[a-zA-Z0-9]`. -/
def isAsciiAlnum (c : Char) : Bool := isAsciiAlpha c || c.isDigit

/-- The regex class `\w`. -/
def isWordChar (c : Char) : Bool := isAsciiAlnum c || c = '_'

/-- Case-insensitive ASCII character comparison (for the `i` regex flag). -/
def eqIC (a b : Char) : Bool :=
  a = b || (isAsciiAlpha a && isAsciiAlpha b &&
    (a.toNat + 32 = b.toNat || b.toNat + 32 = a.toNat))

/-- Strip a literal, case-insensitively. -/
def ciStrip : S → S → Option S
  | [], s => some s
  | _ :: _, [] => none
  | l :: ls, c :: cs => if eqIC l c then ciStrip ls cs else none

/-- Strip a literal, case-sensitively. -/
def litStrip (lit s : S) : Option S :=
  if lit.isPrefixOf s then some (s.drop lit.length) else none

/-- The regex `\s+`: require at least one whitespace character, then
consume the whole whitespace run. -/
def wsPlus : S → Option S
  | c :: rest => if isJsWs c then some (rest.dropWhile isJsWs) else none
  | [] => none

/-- The regex `\s*`. -/
def wsStar (s : S) : S := s.dropWhile isJsWs

/-- A quote character (the regex class `[\x27"]`). -/
def isQuote (c : Char) : Bool := c = '"' || c = '\x27'

/-- Leftmost-match driver: try `matchAt` at each successive start
position. -/
def firstMatch {α : Type} (matchAt : S → Option α) : S → Option α
  | [] => none
  | c :: rest =>
    match matchAt (c :: rest) with
    | some r => some r
    | none => firstMatch matchAt rest

/-- Matcher for `/export\s+default\s+(?:function\s+)?(\w+)/` at one
position, returning the captured name.  The optional `function\s+` group is
taken greedily and given back when no `\w+` follows it. -/
def matchExportDefaultAt (s : S) : Option S := do
  let s1 ← litStrip (chars "export") s
  let s2 ← wsPlus s1
  let s3 ← litStrip (chars "default") s2
  let s4 ← wsPlus s3
  let tryFun : Option S := do
    let s5 ← litStrip (chars "function") s4
    let s6 ← wsPlus s5
    let w := s6.takeWhile isWordChar
    if w.isEmpty then none else some w
  match tryFun with
  | some w => some w
  | none =>
    let w := s4.takeWhile isWordChar
    if w.isEmpty then none else some w

/-- Matcher for `/function\s+([A-Z][a-zA-Z0-9]*)\s*\(/` at one position. -/
def matchFunctionComponentAt (s : S) : Option S := do
  let s1 ← litStrip (chars "function") s
  let s2 ← wsPlus s1
  match s2 with
  | c :: rest =>
    if isAsciiUpper c then
      let tail := rest.takeWhile isAsciiAlnum
      let s3 := wsStar (rest.drop tail.length)
      match s3 with
      | '(' :: _ => some (c :: tail)
      | _ => none
    else none
  | [] => none

/-- Matcher for
`/const\s+([A-Z][a-zA-Z0-9]*)\s*=\s*\([^)]*\)\s*=>/` at one position. -/
def matchArrowComponentAt (s : S) : Option S := do
  let s1 ← litStrip (chars "const") s
  let s2 ← wsPlus s1
  match s2 with
  | c :: rest =>
    if isAsciiUpper c then
      let tail := rest.takeWhile isAsciiAlnum
      let s3 := wsStar (rest.drop tail.length)
      match s3 with
      | '=' :: s4 =>
        match wsStar s4 with
        | '(' :: s5 =>
          let inner := s5.takeWhile (fun d => !(d = ')'))
          match s5.drop inner.length with
          | ')' :: s6 =>
            let s7 := wsStar s6
            (litStrip (chars "=>") s7).map (fun _ => c :: tail)
          | _ => none
        | _ => none
      | _ => none
    else none
  | [] => none

/-- Test for `/\bHOOK\s*[(<]/`: a word-boundary occurrence of the hook
name followed by optional whitespace and `(` or `<`.  `prevIsWord` carries
whether the previous character was a word character. -/
def hookUsedAux (hook : S) : Bool → S → Bool
  | _, [] => false
  | prevIsWord, c :: rest =>
    (if !prevIsWord && hook.isPrefixOf (c :: rest) then
      match wsStar ((c :: rest).drop hook.length) with
      | '(' :: _ => true
      | '<' :: _ => true
      | _ => false
    else false) || hookUsedAux hook (isWordChar c) rest

/-- Whether the source uses a hook as a call expression. -/
def hookUsed (hook : S) (s : S) : Bool := hookUsedAux hook false s

/-- Test for `/const\s*\{[^}]*\}\s*=\s*React/`. -/
def matchConstReactAt (s : S) : Option Unit := do
  let s1 ← litStrip (chars "const") s
  match wsStar s1 with
  | '\x7b' :: s2 =>
    let inner := s2.takeWhile (fun d => !(d = '\x7d'))
    match s2.drop inner.length with
    | '\x7d' :: s3 =>
      match wsStar s3 with
      | '=' :: s4 => (litStrip (chars "React") (wsStar s4)).map (fun _ => ())
      | _ => none
    | _ => none
  | _ => none

/-- Test for `/import\s*\{[^}]*\}\s*from\s*['"]react['"]/`. -/
def matchImportReactNamedAt (s : S) : Option Unit := do
  let s1 ← litStrip (chars "import") s
  match wsStar s1 with
  | '\x7b' :: s2 =>
    let inner := s2.takeWhile (fun d => !(d = '\x7d'))
    match s2.drop inner.length with
    | '\x7d' :: s3 =>
      match wsStar s3 with
      | 'f' :: 'r' :: 'o' :: 'm' :: s4 =>
        match wsStar s4 with
        | q :: s5 =>
          if isQuote q then
            match litStrip (chars "react") s5 with
            | some (q2 :: _) => if isQuote q2 then some () else none
            | _ => none
          else none
        | [] => none
      | _ => none
    | _ => none
  | _ => none

/-- Test for `/import\s+React\s*,\s*\{[^}]*\}\s*from\s*['"]react['"]/`. -/
def matchImportReactDefaultNamedAt (s : S) : Option Unit := do
  let s1 ← litStrip (chars "import") s
  let s2 ← wsPlus s1
  let s3 ← litStrip (chars "React") s2
  match wsStar s3 with
  | ',' :: s4 =>
    match wsStar s4 with
    | '\x7b' :: s5 =>
      let inner := s5.takeWhile (fun d => !(d = '\x7d'))
      match s5.drop inner.length with
      | '\x7d' :: s6 =>
        match wsStar s6 with
        | 'f' :: 'r' :: 'o' :: 'm' :: s7 =>
          match wsStar s7 with
          | q :: s8 =>
            if isQuote q then
              match litStrip (chars "react") s8 with
              | some (q2 :: _) => if isQuote q2 then some () else none
              | _ => none
            else none
          | [] => none
        | _ => none
      | _ => none
    | _ => none
  | _ => none

/-- The regex class `[\w\s\x7b\x7d,*]` of the import specifier group. -/
def isSpecChar (c : Char) : Bool :=
  isWordChar c || isJsWs c || c = '\x7b' || c = '\x7d' || c = ',' || c = '*'

/-- Matcher (at one position) for the external-import regex
`/import\s+(?:[\w\s\x7b\x7d,*]+\s+from\s+)?['"]([^'"./@][^'"]*)['"];?/g`:
returns the captured package name and the rest of the input after the
match.  The optional specifier group can only end right before the quote
(its class excludes quotes), so it succeeds exactly when the maximal
class run is non-empty and ends with `\s+from\s+`; otherwise the group must
be absent, which requires the maximal class run to be empty. -/
def matchExternalImportAt (s : S) : Option (S × S) := do
  let s1 ← litStrip (chars "import") s
  let s2 ← wsPlus s1
  let run := s2.takeWhile isSpecChar
  let afterRun := s2.drop run.length
  let groupOk : Bool :=
    let r1 := run.reverse.dropWhile isJsWs
    decide (r1.length < run.length) &&
      (chars "morf").isPrefixOf r1 &&
      (let r2 := r1.drop 4
       let r3 := r2.dropWhile isJsWs
       decide (r3.length < r2.length) && !r3.isEmpty)
  if run.isEmpty || groupOk then
    match afterRun with
    | q :: s3 =>
      if isQuote q then
        match s3 with
        | c1 :: s4 =>
          if !(c1 = '"' || c1 = '\x27' || c1 = '.' || c1 = '/' || c1 = '@') then
            let more := s4.takeWhile (fun d => !(d = '"' || d = '\x27'))
            match s4.drop more.length with
            | q2 :: s5 =>
              if isQuote q2 then
                match s5 with
                | ';' :: s6 => some (c1 :: more, s6)
                | _ => some (c1 :: more, s5)
              else none
            | [] => none
          else none
        | [] => none
      else none
    | [] => none
  else none

/-- The global `exec` loop of the external-import regex: successive
leftmost matches, resuming after each match. -/
def externalImportLoop : Nat → S → List S
  | 0, _ => []
  | _ + 1, [] => []
  | fuel + 1, c :: rest =>
    match matchExternalImportAt (c :: rest) with
    | some (pkg, after) => pkg :: externalImportLoop fuel after
    | none => externalImportLoop fuel rest

/-- Base package name: an `@org/pkg` import contributes the two-segment
name, a plain import its first path segment. -/
def basePkgOf (pkg : S) : S :=
  if pkg.head? = some '@' then joinWith (chars "/") ((splitOnChar '/' pkg).take 2)
  else ((splitOnChar '/' pkg).headI)

/-- Worker for `dedupFirst`, carrying the set of names already seen. -/
def dedupFirstAux (seen : List S) : List S → List S
  | [] => []
  | x :: xs =>
    if seen.contains x then dedupFirstAux seen xs
    else x :: dedupFirstAux (x :: seen) xs

/-- `[...new Set(xs)]`: deduplicate keeping first occurrences, in order. -/
def dedupFirst (l : List S) : List S := dedupFirstAux [] l

/-! ## Global `String.replace` driver and the source transforms -/

/-- Global regex replacement driver: at each position, either apply the
matcher (which yields the replacement text and the number of characters
consumed, at least one) and resume after the match, or keep the character
and move on — JS `String.replace` with the `g` flag. -/
def replaceSweep (m : S → Option (S × Nat)) : S → S
  | [] => []
  | c :: rest =>
    match m (c :: rest) with
    | some (repl, n + 1) => repl ++ replaceSweep m (rest.drop n)
    | _ => c :: replaceSweep m rest
termination_by s => s.length
decreasing_by
  · simp only [List.length_drop, List.length_cons]
    omega
  · simp only [List.length_cons]
    omega

/-- The replacement callback of the react-import transforms: split the
captured specifier list on commas, trim, drop empties, and destructure from
the `React` global. -/
def reactDestructureRepl (captured : S) : S :=
  let hooks := ((splitOnChar ',' captured).map trimJs).filter (fun h => !h.isEmpty)
  chars "const \x7b " ++ joinWith (chars ", ") hooks ++ chars " \x7d = React;"

/-- Matcher for `/import\s*\x7b([^\x7d]+)\x7d\s*from\s*['"]react['"];?/g`. -/
def matchT1At (s : S) : Option (S × Nat) := do
  let s1 ← litStrip (chars "import") s
  match wsStar s1 with
  | '\x7b' :: s3 =>
    let captured := s3.takeWhile (fun d => !(d = '\x7d'))
    if captured.isEmpty then none else
    match s3.drop captured.length with
    | '\x7d' :: s4 =>
      let s5 ← litStrip (chars "from") (wsStar s4)
      match wsStar s5 with
      | q :: s6 =>
        if isQuote q then
          match litStrip (chars "react") s6 with
          | some (q2 :: s7) =>
            if isQuote q2 then
              let after := match s7 with
                | ';' :: s8 => s8
                | _ => s7
              some (reactDestructureRepl captured, s.length - after.length)
            else none
          | _ => none
        else none
      | [] => none
    | _ => none
  | _ => none

/-- Matcher for
`/import\s+React\s*,\s*\x7b([^\x7d]+)\x7d\s*from\s*['"]react['"];?/g`. -/
def matchT2At (s : S) : Option (S × Nat) := do
  let s1 ← litStrip (chars "import") s
  let s2 ← wsPlus s1
  let s3 ← litStrip (chars "React") s2
  match wsStar s3 with
  | ',' :: s4 =>
    match wsStar s4 with
    | '\x7b' :: s5 =>
      let captured := s5.takeWhile (fun d => !(d = '\x7d'))
      if captured.isEmpty then none else
      match s5.drop captured.length with
      | '\x7d' :: s6 =>
        let s7 ← litStrip (chars "from") (wsStar s6)
        match wsStar s7 with
        | q :: s8 =>
          if isQuote q then
            match litStrip (chars "react") s8 with
            | some (q2 :: s9) =>
              if isQuote q2 then
                let after := match s9 with
                  | ';' :: s10 => s10
                  | _ => s9
                some (reactDestructureRepl captured, s.length - after.length)
              else none
            | _ => none
          else none
        | [] => none
      | _ => none
    | _ => none
  | _ => none

/-- The tail `from\s*['"][^'"]+['"];?\n?` of the strip-imports regex. -/
def matchT3TailAt (s : S) : Option S := do
  let s1 ← litStrip (chars "from") s
  match wsStar s1 with
  | q :: s2 =>
    if isQuote q then
      let inner := s2.takeWhile (fun d => !(isQuote d))
      if inner.isEmpty then none else
      match s2.drop inner.length with
      | q2 :: s3 =>
        if isQuote q2 then
          let s4 := match s3 with
            | ';' :: t => t
            | _ => s3
          let s5 := match s4 with
            | '\n' :: t => t
            | _ => s4
          some s5
        else none
      | [] => none
    else none
  | [] => none

/-- The lazy `.*?` scan of the strip-imports regex: try the tail at each
position, never crossing a newline. -/
def lazyScanT3 : S → Option S
  | [] => none
  | c :: rest =>
    match matchT3TailAt (c :: rest) with
    | some after => some after
    | none => if c = '\n' then none else lazyScanT3 rest

/-- Matcher for `/import\s+.*?from\s*['"][^'"]+['"];?\n?/g` (strip all
remaining `from`-imports). -/
def matchT3At (s : S) : Option (S × Nat) := do
  let s1 ← litStrip (chars "import") s
  let s2 ← wsPlus s1
  let after ← lazyScanT3 s2
  some ([], s.length - after.length)

/-- Matcher for `/import\s+['"][^'"]+['"];?\n?/g` (strip bare imports). -/
def matchT4At (s : S) : Option (S × Nat) := do
  let s1 ← litStrip (chars "import") s
  let s2 ← wsPlus s1
  match s2 with
  | q :: s3 =>
    if isQuote q then
      let inner := s3.takeWhile (fun d => !(isQuote d))
      if inner.isEmpty then none else
      match s3.drop inner.length with
      | q2 :: s4 =>
        if isQuote q2 then
          let s5 := match s4 with
            | ';' :: t => t
            | _ => s4
          let s6 := match s5 with
            | '\n' :: t => t
            | _ => s5
          some ([], s.length - s6.length)
        else none
      | [] => none
    else none
  | [] => none

/-- Matcher for `/export\s+default\s+function\s+/g`, replaced by
`"function "`. -/
def matchT5At (s : S) : Option (S × Nat) := do
  let s1 ← litStrip (chars "export") s
  let s2 ← wsPlus s1
  let s3 ← litStrip (chars "default") s2
  let s4 ← wsPlus s3
  let s5 ← litStrip (chars "function") s4
  let s6 ← wsPlus s5
  some (chars "function ", s.length - s6.length)

/-- The `\s*;?$` tail of the standalone-default-export regex at one
whitespace split: an optional semicolon followed by a multiline
end-of-line. -/
def t6AtPos : S → Option S
  | ';' :: t2 => if t2.isEmpty || t2.head? = some '\n' then some t2 else none
  | t => if t.isEmpty || t.head? = some '\n' then some t else none

/-- Greedy backtracking over the `\s*` run of the standalone-default-export
regex, longest first. -/
def t6Descend (s : S) : Nat → Option S
  | 0 => t6AtPos s
  | j + 1 =>
    match t6AtPos (s.drop (j + 1)) with
    | some after => some after
    | none => t6Descend s j

/-- Matcher for `/export\s+default\s+(\w+)\s*;?$/gm`, replaced by the empty
string. -/
def matchT6At (s : S) : Option (S × Nat) := do
  let s1 ← litStrip (chars "export") s
  let s2 ← wsPlus s1
  let s3 ← litStrip (chars "default") s2
  let s4 ← wsPlus s3
  let w := s4.takeWhile isWordChar
  if w.isEmpty then none else
  let s5 := s4.drop w.length
  let after ← t6Descend s5 (s5.takeWhile isJsWs).length
  some ([], s.length - after.length)

/-- Matcher for `/export\s+/g`, replaced by the empty string. -/
def matchT7At (s : S) : Option (S × Nat) := do
  let s1 ← litStrip (chars "export") s
  let s2 ← wsPlus s1
  some ([], s.length - s2.length)

/-- The browser-compatibility transform chain applied to the combined JSX
source, in source order. -/
def applyTransforms (code : S) : S :=
  replaceSweep matchT7At
    (replaceSweep matchT6At
      (replaceSweep matchT5At
        (replaceSweep matchT4At
          (replaceSweep matchT3At
            (replaceSweep matchT2At
              (replaceSweep matchT1At code))))))

/-! ## `sanitizeHtml` and its two patterns -/

/-- Length of the maximal `>`-free run (the furthest `[^>]*` can reach). -/
def firstGtRun (s : S) : Nat := (s.takeWhile (fun c => !(c = '>'))).length

/-- One candidate split of `/<script[^>]*src=["']file:\/\/[^"']*["'][^>]*>/i`
after `<script`: `[^>]*` takes `k` characters, then `src=`, a quote,
`file://`, the URL run, a closing quote, `[^>]*` and `>`.  Returns the
matched length after `<script`. -/
def scriptTryAt (s1 : S) (k : Nat) : Option Nat := do
  if (s1.take k).any (fun c => c = '>') then none else
  let t ← ciStrip (chars "src=") (s1.drop k)
  match t with
  | q :: t2 =>
    if isQuote q then do
      let t3 ← ciStrip (chars "file://") t2
      let b := t3.takeWhile (fun c => !(isQuote c))
      match t3.drop b.length with
      | q2 :: t5 =>
        if isQuote q2 then
          let cpart := t5.takeWhile (fun c => !(c = '>'))
          match t5.drop cpart.length with
          | '>' :: _ => some (k + 4 + 1 + 7 + b.length + 1 + cpart.length + 1)
          | _ => none
        else none
      | [] => none
    else none
  | [] => none

/-- Greedy backtracking over `[^>]*`: try the longest split first. -/
def scriptDescend (s1 : S) : Nat → Option Nat
  | 0 => scriptTryAt s1 0
  | k + 1 =>
    match scriptTryAt s1 (k + 1) with
    | some n => some n
    | none => scriptDescend s1 k

/-- Matcher (at one position) for the `file://`-script pattern of
`sanitizeHtml`; returns the total match length. -/
def matchScriptAt (s : S) : Option Nat :=
  match ciStrip (chars "<script") s with
  | some s1 => (scriptDescend s1 (firstGtRun s1)).map (fun n => n + 7)
  | none => none

/-- One candidate split of `/<meta[^>]*http-equiv=["']refresh["'][^>]*>/i`
after `<meta`. -/
def metaTryAt (s1 : S) (k : Nat) : Option Nat := do
  if (s1.take k).any (fun c => c = '>') then none else
  let t ← ciStrip (chars "http-equiv=") (s1.drop k)
  match t with
  | q :: t2 =>
    if isQuote q then do
      let t3 ← ciStrip (chars "refresh") t2
      match t3 with
      | q2 :: t5 =>
        if isQuote q2 then
          let cpart := t5.takeWhile (fun c => !(c = '>'))
          match t5.drop cpart.length with
          | '>' :: _ => some (k + 11 + 1 + 7 + 1 + cpart.length + 1)
          | _ => none
        else none
      | [] => none
    else none
  | [] => none

/-- Greedy backtracking for the meta-refresh pattern. -/
def metaDescend (s1 : S) : Nat → Option Nat
  | 0 => metaTryAt s1 0
  | k + 1 =>
    match metaTryAt s1 (k + 1) with
    | some n => some n
    | none => metaDescend s1 k

/-- Matcher (at one position) for the meta-refresh pattern of
`sanitizeHtml`; returns the total match length. -/
def matchMetaAt (s : S) : Option Nat :=
  match ciStrip (chars "<meta") s with
  | some s1 => (metaDescend s1 (firstGtRun s1)).map (fun n => n + 5)
  | none => none

/-- Global removal driver: delete every (leftmost, non-overlapping) match
of the pattern. -/
def sweep (m : S → Option Nat) : S → S
  | [] => []
  | c :: rest =>
    match m (c :: rest) with
    | some (n + 1) => sweep m (rest.drop n)
    | _ => c :: sweep m rest
termination_by s => s.length
decreasing_by
  · simp only [List.length_drop, List.length_cons]
    omega
  · simp only [List.length_cons]
    omega

/-- `sanitizeHtml` from `utils.ts`: strip `file://`-script open tags, then
meta-refresh tags. -/
def sanitizeHtml (html : S) : S :=
  sweep matchMetaAt (sweep matchScriptAt html)

/-- Does the document contain (an occurrence of) a script tag whose `src`
is a `file://` URL, in the sense of `sanitizeHtml`'s own pattern? -/
def containsFileScriptTag : S → Bool
  | [] => false
  | c :: rest => (matchScriptAt (c :: rest)).isSome || containsFileScriptTag rest

/-! ## Preview document templates -/

/-- The synthesized vanilla document shell (no HTML file present). -/
def vanillaShellDoc (css js : S) : S :=
  chars "<!DOCTYPE html>\n<html lang=\"en\">\n<head>\n  <meta charset=\"UTF-8\">\n  <meta name=\"viewport\" content=\"width=device-width, initial-scale=1.0\">\n  <title>Preview</title>\n  <style>\n" ++
  css ++
  chars "\n  </style>\n</head>\n<body>\n  <div id=\"root\"></div>\n  <script>\n" ++
  js ++
  chars "\n  </script>\n</body>\n</html>"

/-- One package badge of the npm-packages warning surface. -/
def pkgSpan (pkg : S) : S :=
  chars "<span style=\"\n              background: rgba(99, 102, 241, 0.15); border: 1px solid rgba(99, 102, 241, 0.3);\n              color: #a5b4fc; padding: 4px 12px; border-radius: 20px; font-size: 13px;\n              font-family: ui-monospace, monospace;\n            \">" ++
  pkg ++ chars "</span>"

/-- The `npm Packages Required` warning block, naming the missing
packages. -/
def npmWarningInner (pkgs : List S) : S :=
  chars "<div id=\"npm-package-warning\" style=\"\n        display: flex; flex-direction: column; align-items: center; justify-content: center;\n        min-height: 100vh; padding: 32px; background: linear-gradient(135deg, #1e1b4b 0%, #0f172a 100%);\n        font-family: system-ui, -apple-system, sans-serif; color: #e2e8f0;\n      \">\n        <div style=\"\n          max-width: 480px; width: 100%; background: rgba(30, 41, 59, 0.8);\n          border: 1px solid rgba(99, 102, 241, 0.3); border-radius: 16px;\n          padding: 32px; text-align: center; backdrop-filter: blur(12px);\n          box-shadow: 0 25px 50px -12px rgba(0, 0, 0, 0.5);\n        \">\n          <div style=\"font-size: 48px; margin-bottom: 16px;\">📦</div>\n          <h2 style=\"font-size: 20px; font-weight: 700; margin-bottom: 8px; color: #f1f5f9;\">\n            npm Packages Required\n          </h2>\n          <p style=\"font-size: 14px; color: #94a3b8; margin-bottom: 20px; line-height: 1.6;\">\n            This component uses packages that aren&apos;t available in Fast mode:\n          </p>\n          <div style=\"\n            display: flex; flex-wrap: wrap; gap: 8px; justify-content: center; margin-bottom: 24px;\n          \">\n            " ++
  joinWith (chars "\n            ") (pkgs.map pkgSpan) ++
  chars "\n          </div>\n          <p style=\"font-size: 14px; color: #cbd5e1; line-height: 1.6; margin-bottom: 24px;\">\n            Switch to <strong style=\"color: #a5b4fc;\">npm mode</strong> to install real packages\n            and see the full preview with all features.\n          </p>\n          <div style=\"\n            display: inline-flex; align-items: center; gap: 8px;\n            background: rgba(99, 102, 241, 0.2); border: 1px solid rgba(99, 102, 241, 0.4);\n            padding: 10px 20px; border-radius: 8px; font-size: 13px; color: #c7d2fe;\n          \">\n            <span>Click</span>\n            <span style=\"\n              background: #4f46e5; color: white; padding: 2px 8px; border-radius: 4px;\n              font-weight: 600; font-size: 12px; display: inline-flex; align-items: center; gap: 4px;\n            \">📦 npm</span>\n            <span>in the toolbar above</span>\n          </div>\n        </div>\n      </div>"

/-- The full warning page returned when external npm packages are
detected. -/
def npmWarningDoc (pkgs : List S) : S :=
  chars "<!DOCTYPE html>\n<html lang=\"en\">\n<head>\n  <meta charset=\"UTF-8\">\n  <meta name=\"viewport\" content=\"width=device-width, initial-scale=1.0\">\n  <title>React Preview</title>\n</head>\n<body style=\"margin: 0;\">\n  " ++
  npmWarningInner pkgs ++
  chars "\n</body>\n</html>"

/-- The full CDN-based react preview document (Twind styling engine,
global error handler, babel script with the transformed source, and the
`renderApp` mount call). -/
def reactFullDoc (css jsCode hooksSetup jsxCode componentName : S) : S :=
  chars "<!DOCTYPE html>\n<html lang=\"en\">\n<head>\n  <meta charset=\"UTF-8\">\n  <meta name=\"viewport\" content=\"width=device-width, initial-scale=1.0\">\n  <title>React Preview</title>\n  <script src=\"https://unpkg.com/react@18/umd/react.development.js\" crossorigin></script>\n  <script src=\"https://unpkg.com/react-dom@18/umd/react-dom.development.js\" crossorigin></script>\n  <script src=\"https://unpkg.com/@babel/standalone/babel.min.js\" crossorigin></script>\n  <!-- Use Twind (Tailwind-in-JS) - works with COEP headers unlike Tailwind CDN -->\n  <script type=\"module\">\n    import \x7b install, injectGlobal \x7d from \x27https://esm.sh/@twind/core@1.1.3\x27;\n    import presetTailwind from \x27https://esm.sh/@twind/preset-tailwind@1.1.4\x27;\n    import presetAutoprefix from \x27https://esm.sh/@twind/preset-autoprefix@1.0.7\x27;\n    \n    install(\x7b\n      presets: [presetAutoprefix(), presetTailwind()],\n      hash: false,\n    \x7d);\n    \n    // Add base styles\n    injectGlobal\x60\n      * \x7b box-sizing: border-box; margin: 0; padding: 0; \x7d\n      body \x7b font-family: system-ui, -apple-system, sans-serif; min-height: 100vh; \x7d\n      #root \x7b min-height: 100vh; \x7d\n    \x60;\n    \n    // Signal that Twind is ready\n    window.twindReady = true;\n    window.dispatchEvent(new Event(\x27twind-ready\x27));\n  </script>\n  <style>\n    .error-container \x7b padding: 20px; background: #fee2e2; border: 1px solid #ef4444; border-radius: 8px; margin: 20px; \x7d\n    .error-title \x7b color: #dc2626; font-weight: bold; margin-bottom: 8px; \x7d\n    .error-message \x7b color: #991b1b; font-family: monospace; white-space: pre-wrap; \x7d\n" ++
  css ++
  chars "\n  </style>\n</head>\n<body class=\"min-h-screen\">\n  <div id=\"root\" class=\"min-h-screen\"></div>\n  <div id=\"error-display\" style=\"display:none;\"></div>\n  " ++
  (if jsCode.isEmpty then [] else chars "<script>\n" ++ jsCode ++ chars "\n</script>") ++
  chars "\n  <script>\n    // Global error handler\n    window.onerror = function(message, source, lineno, colno, error) \x7b\n      const errorDiv = document.getElementById(\x27error-display\x27);\n      errorDiv.style.display = \x27block\x27;\n      errorDiv.innerHTML = \x27<div class=\"error-container\"><div class=\"error-title\">JavaScript Error</div><div class=\"error-message\">\x27 + message + \x27</div></div>\x27;\n      return true;\n    \x7d;\n  </script>\n  <script type=\"text/babel\" data-presets=\"react,typescript\">\n" ++
  hooksSetup ++ jsxCode ++
  chars "\n\n// Auto-render the component, waiting for Twind to be ready\nfunction renderApp() \x7b\n  try \x7b\n    const root = ReactDOM.createRoot(document.getElementById(\x27root\x27));\n    root.render(React.createElement(" ++
  componentName ++
  chars "));\n  \x7d catch (error) \x7b\n    document.getElementById(\x27error-display\x27).style.display = \x27block\x27;\n    document.getElementById(\x27error-display\x27).innerHTML = \x27<div class=\"error-container\"><div class=\"error-title\">Render Error</div><div class=\"error-message\">\x27 + error.message + \x27</div></div>\x27;\n  \x7d\n\x7d\n\n// Wait for Twind to initialize before rendering\nif (window.twindReady) \x7b\n  renderApp();\n\x7d else \x7b\n  window.addEventListener(\x27twind-ready\x27, renderApp);\n  // Fallback: render anyway after 1 second if Twind takes too long\n  setTimeout(function() \x7b\n    if (!window.twindReady) renderApp();\n  \x7d, 1000);\n\x7d\n  </script>\n</body>\n</html>"

/-- The Vue 3 global-build preview document. -/
def vuePreviewDoc (css vueCode : S) : S :=
  chars "<!DOCTYPE html>\n<html lang=\"en\">\n<head>\n  <meta charset=\"UTF-8\">\n  <meta name=\"viewport\" content=\"width=device-width, initial-scale=1.0\">\n  <title>Vue Preview</title>\n  <script src=\"https://unpkg.com/vue@3/dist/vue.global.js\"></script>\n  <style>\n    * \x7b box-sizing: border-box; margin: 0; padding: 0; \x7d\n    body \x7b font-family: system-ui, -apple-system, sans-serif; \x7d\n" ++
  css ++
  chars "\n  </style>\n</head>\n<body>\n  <div id=\"app\"></div>\n  <script>\n" ++
  vueCode ++
  chars "\n  </script>\n</body>\n</html>"

/-! ## The preview compiler (`utils.ts`, current version) -/

/-- The enumerable fixed set of framework hooks the compiler can
auto-bind. -/
def reactHooks : List S :=
  [chars "useState", chars "useEffect", chars "useCallback", chars "useMemo",
    chars "useRef", chars "useContext", chars "useReducer", chars "useLayoutEffect",
    chars "useImperativeHandle", chars "useDebugValue", chars "useDeferredValue",
    chars "useTransition", chars "useId", chars "useSyncExternalStore",
    chars "useInsertionEffect"]

/-- JS truthiness of a possibly-undefined string. -/
def truthyOptStr : Option S → Bool
  | some s => !s.isEmpty
  | none => false

/-- `generateReactPreview` from `utils.ts`: entry-name detection, hook
auto-binding, external-package detection (before stripping), the
import/export transforms, the provided-HTML passthrough, the npm-packages
warning page, and the full CDN render document. -/
def generateReactPreview (existingHtml : Option S) (css : S) (jsFiles : List ArtifactFile) : S :=
  let jsxFiltered := jsFiles.filter (fun f =>
    hasSuffix f.path (chars ".jsx") || hasSuffix f.path (chars ".tsx"))
  let hadJsx := !jsxFiltered.isEmpty
  let jsxFiles := if jsxFiltered.isEmpty then jsFiles else jsxFiltered
  let regularJs := jsFiles.filter (fun f =>
    !hasSuffix f.path (chars ".jsx") && !hasSuffix f.path (chars ".tsx") &&
      !hasSuffix f.path (chars ".ts"))
  let jsxCode := joinWith (chars "\n\n") (jsxFiles.map (fun f => f.content))
  let jsCode := if !regularJs.isEmpty && hadJsx then
      joinWith (chars "\n") (regularJs.map (fun f => f.content))
    else []
  let componentName :=
    match firstMatch matchExportDefaultAt jsxCode with
    | some nm => nm
    | none =>
      match firstMatch matchFunctionComponentAt jsxCode with
      | some nm => nm
      | none =>
        match firstMatch matchArrowComponentAt jsxCode with
        | some nm => nm
        | none => chars "App"
  let usedHooks := reactHooks.filter (fun h => hookUsed h jsxCode)
  let hasHooksImport :=
    (firstMatch matchConstReactAt jsxCode).isSome ||
      (firstMatch matchImportReactNamedAt jsxCode).isSome ||
      (firstMatch matchImportReactDefaultNamedAt jsxCode).isSome
  let externalPackages :=
    ((externalImportLoop (jsxCode.length + 1) jsxCode).map basePkgOf).filter
      (fun p => !(p = chars "react") && !(p = chars "react-dom"))
  let hasNpmPackages := !externalPackages.isEmpty
  let uniqueExternalPackages := dedupFirst externalPackages
  let transformed := applyTransforms jsxCode
  let hooksSetup :=
    if !usedHooks.isEmpty && !hasHooksImport then
      chars "const \x7b " ++ joinWith (chars ", ") usedHooks ++ chars " \x7d = React;\n\n"
    else []
  if truthyOptStr existingHtml then existingHtml.getD []
  else if hasNpmPackages then npmWarningDoc uniqueExternalPackages
  else reactFullDoc css jsCode hooksSetup transformed componentName

/-- `generateVuePreview` from `utils.ts` (its `existingHtml` parameter is
accepted but never consulted in the current version). -/
def generateVuePreview (existingHtml : Option S) (css : S) (files : List ArtifactFile) : S :=
  let _ := existingHtml
  let jsFiles := files.filter (fun f => hasSuffix f.path (chars ".js"))
  let vueCode := joinWith (chars "\n") (jsFiles.map (fun f => f.content))
  vuePreviewDoc css vueCode

/-- `generatePreviewHtml` from `utils.ts`: route on language; for vanilla
artifacts inject CSS before `</head>` and non-JSX JS before `</body>` into
the HTML file, or synthesize a shell when no HTML file exists. -/
def generatePreviewHtml (artifact : Artifact) : S :=
  let files := artifact.files
  let htmlFile := files.find? (fun f => hasSuffix f.path (chars ".html"))
  let cssFiles := files.filter (fun f => hasSuffix f.path (chars ".css"))
  let jsFiles := files.filter (fun f =>
    hasSuffix f.path (chars ".js") || hasSuffix f.path (chars ".jsx") ||
      hasSuffix f.path (chars ".ts") || hasSuffix f.path (chars ".tsx"))
  let combinedCss := joinWith (chars "\n") (cssFiles.map (fun f => f.content))
  if artifact.language = ArtifactLanguage.react then
    generateReactPreview (htmlFile.map (fun f => f.content)) combinedCss jsFiles
  else if artifact.language = ArtifactLanguage.vue then
    generateVuePreview (htmlFile.map (fun f => f.content)) combinedCss files
  else
    match htmlFile with
    | some hf =>
      let withCss :=
        if !combinedCss.isEmpty then
          replaceFirst (chars "</head>")
            (chars "<style>\n" ++ combinedCss ++ chars "\n</style>" ++ chars "\n</head>")
            hf.content
        else hf.content
      let combinedJs := joinWith (chars "\n")
        ((jsFiles.filter (fun f => !hasSuffix f.path (chars ".jsx"))).map (fun f => f.content))
      if !combinedJs.isEmpty then
        replaceFirst (chars "</body>")
          (chars "<script>\n" ++ combinedJs ++ chars "\n</script>" ++ chars "\n</body>")
          withCss
      else withCss
    | none =>
      vanillaShellDoc combinedCss
        (joinWith (chars "\n")
          ((jsFiles.filter (fun f => !hasSuffix f.path (chars ".jsx"))).map (fun f => f.content)))

/-! ## JSON values and `JSON.parse`

`parseArtifact` feeds the extracted text to `JSON.parse` and validates the
resulting value, whose TypeScript type is only asserted, never checked — so
the validator is modelled on raw JSON values and `parseArtifact` returns
the parsed `Json` value itself.  The parser below is a faithful model of
`JSON.parse` (strict whitespace, string escapes, number grammar, trailing
input rejected); its one divergence is `\u` escapes of surrogate halves,
which a Lean `Char` cannot carry. -/

/-- A JSON value.  Object fields keep source order; duplicate keys are
resolved last-wins at lookup time, as `JSON.parse` does. -/
inductive Json
  | null
  | bool (b : Bool)
  | num (q : ℚ)
  | str (s : S)
  | arr (elems : List Json)
  | obj (fields : List (S × Json))

/-- JSON's whitespace class (strictly space, tab, newline, return). -/
def isJsonWs (c : Char) : Bool :=
  c = ' ' || c = '\t' || c = '\n' || c = '\r'

/-- Value of a hexadecimal digit. -/
def parseHexDigit (c : Char) : Option Nat :=
  if '0' ≤ c && c ≤ '9' then some (c.toNat - 48)
  else if 'a' ≤ c && c ≤ 'f' then some (c.toNat - 87)
  else if 'A' ≤ c && c ≤ 'F' then some (c.toNat - 55)
  else none

/-- The meaning of a single-character JSON escape, if valid. -/
def escapeMeaning (e : Char) : Option Char :=
  if e = '"' then some '"'
  else if e = '\\' then some '\\'
  else if e = '/' then some '/'
  else if e = 'b' then some '\x08'
  else if e = 'f' then some '\x0c'
  else if e = 'n' then some '\n'
  else if e = 'r' then some '\r'
  else if e = 't' then some '\t'
  else none

/-- Parse the body of a JSON string literal (after the opening quote),
returning the decoded text and the input after the closing quote.  Raw
control characters and invalid escapes are rejected, as in `JSON.parse`. -/
def parseStringBody : S → Option (S × S)
  | [] => none
  | c :: rest =>
    if c = '"' then some ([], rest)
    else if c = '\\' then
      match rest with
      | [] => none
      | e :: rest2 =>
        if e = 'u' then
          match rest2 with
          | h1 :: h2 :: h3 :: h4 :: rest3 =>
            (match parseHexDigit h1, parseHexDigit h2, parseHexDigit h3, parseHexDigit h4 with
              | some a, some b, some d1, some d0 =>
                (parseStringBody rest3).map
                  (fun r => (Char.ofNat (4096 * a + 256 * b + 16 * d1 + d0) :: r.1, r.2))
              | _, _, _, _ => none)
          | _ => none
        else
          match escapeMeaning e with
          | some m => (parseStringBody rest2).map (fun r => (m :: r.1, r.2))
          | none => none
    else if c.toNat < 32 then none
    else (parseStringBody rest).map (fun r => (c :: r.1, r.2))

/-- Decimal digits to a natural number. -/
def digitsToNat (ds : S) : Nat :=
  ds.foldl (fun acc c => acc * 10 + (c.toNat - 48)) 0

/-- Parse the exponent digits of a JSON number. -/
def parseExpDigits (neg : Bool) (t : S) : Option (Bool × Nat × S) :=
  let ds := t.takeWhile Char.isDigit
  if ds.isEmpty then none else some (neg, digitsToNat ds, t.drop ds.length)

/-- Parse the optional exponent part of a JSON number. -/
def parseExp : S → Option (Bool × Nat × S)
  | 'e' :: '+' :: t => parseExpDigits false t
  | 'e' :: '-' :: t => parseExpDigits true t
  | 'e' :: t => parseExpDigits false t
  | 'E' :: '+' :: t => parseExpDigits false t
  | 'E' :: '-' :: t => parseExpDigits true t
  | 'E' :: t => parseExpDigits false t
  | s => some (false, 0, s)

/-- Parse a JSON number (`-? int frac? exp?`, no leading zeros). -/
def parseNumber (s : S) : Option (ℚ × S) :=
  let neg := s.head? == some '-'
  let s1 := if neg then s.drop 1 else s
  let intDigits := s1.takeWhile Char.isDigit
  if intDigits.isEmpty then none
  else if intDigits.head? == some '0' && decide (1 < intDigits.length) then none
  else
    let s2 := s1.drop intDigits.length
    let hasDot := s2.head? == some '.'
    let fracDigits :=
      match s2 with
      | '.' :: t => t.takeWhile Char.isDigit
      | _ => []
    if hasDot && fracDigits.isEmpty then none
    else
      let s3 := if hasDot then s2.drop (1 + fracDigits.length) else s2
      match parseExp s3 with
      | none => none
      | some (eneg, e, s4) =>
        let mant : ℚ :=
          (digitsToNat intDigits : ℚ) +
            (digitsToNat fracDigits : ℚ) / ((10 : ℚ) ^ fracDigits.length)
        let signed := if neg then -mant else mant
        let v := if eneg then signed / ((10 : ℚ) ^ e) else signed * ((10 : ℚ) ^ e)
        some (v, s4)

mutual

/-- Parse one JSON value (fuel-indexed; the callers supply fuel exceeding
the input length, which bounds the recursion of a terminating parse). -/
def parseValue : Nat → S → Option (Json × S)
  | 0, _ => none
  | n + 1, s =>
    match s.dropWhile isJsonWs with
    | '\x7b' :: rest =>
      (match rest.dropWhile isJsonWs with
        | '\x7d' :: rest2 => some (.obj [], rest2)
        | rest2 => (parseFields n rest2).map (fun r => (.obj r.1, r.2)))
    | '[' :: rest =>
      (match rest.dropWhile isJsonWs with
        | ']' :: rest2 => some (.arr [], rest2)
        | rest2 => (parseItems n rest2).map (fun r => (.arr r.1, r.2)))
    | '"' :: rest => (parseStringBody rest).map (fun r => (.str r.1, r.2))
    | 't' :: 'r' :: 'u' :: 'e' :: rest => some (.bool true, rest)
    | 'f' :: 'a' :: 'l' :: 's' :: 'e' :: rest => some (.bool false, rest)
    | 'n' :: 'u' :: 'l' :: 'l' :: rest => some (.null, rest)
    | rest => (parseNumber rest).map (fun r => (.num r.1, r.2))

/-- Parse the members of a non-empty JSON object, after the `\x7b`. -/
def parseFields : Nat → S → Option (List (S × Json) × S)
  | 0, _ => none
  | n + 1, s =>
    match s.dropWhile isJsonWs with
    | '"' :: rest =>
      (match parseStringBody rest with
        | none => none
        | some (k, r1) =>
          match r1.dropWhile isJsonWs with
          | ':' :: r2 =>
            (match parseValue n r2 with
              | none => none
              | some (v, r3) =>
                match r3.dropWhile isJsonWs with
                | ',' :: r4 => (parseFields n r4).map (fun r => ((k, v) :: r.1, r.2))
                | '\x7d' :: r4 => some ([(k, v)], r4)
                | _ => none)
          | _ => none)
    | _ => none

/-- Parse the elements of a non-empty JSON array, after the `[`. -/
def parseItems : Nat → S → Option (List Json × S)
  | 0, _ => none
  | n + 1, s =>
    match parseValue n s with
    | none => none
    | some (v, r1) =>
      match r1.dropWhile isJsonWs with
      | ',' :: r2 => (parseItems n r2).map (fun r => (v :: r.1, r.2))
      | ']' :: r2 => some ([v], r2)
      | _ => none

end

/-- `JSON.parse`: one value, optional surrounding whitespace, no trailing
input. -/
def parseJsonTop (s : S) : Option Json :=
  match parseValue (s.length + 1) s with
  | some (v, rest) => if (rest.dropWhile isJsonWs).isEmpty then some v else none
  | none => none

/-! ## The JS view of a parsed value -/

/-- JS truthiness of a JSON value (`NaN` does not arise from
`JSON.parse`). -/
def truthy : Json → Bool
  | .null => false
  | .bool b => b
  | .num q => !decide (q = 0)
  | .str s => !s.isEmpty
  | .arr _ => true
  | .obj _ => true

/-- Object lookup, last key wins (the `JSON.parse` duplicate-key rule). -/
def lookupLast (k : S) : List (S × Json) → Option Json
  | [] => none
  | (k2, v) :: rest =>
    match lookupLast k rest with
    | some r => some r
    | none => if k2 = k then some v else none

/-- JS property access `v[k]` on a parsed value: a field of an object,
`undefined` (`none`) otherwise.  Access on `null` throws in JS; both call
sites sit in the validator's `try`, where the throw and a falsy `undefined`
produce the same `null` result, so `none` is returned here as well. -/
def jsGetD (v : Json) (k : S) : Option Json :=
  match v with
  | .obj fields => lookupLast k fields
  | _ => none

/-- Truthiness of a possibly-undefined value. -/
def truthyOpt : Option Json → Bool
  | some j => truthy j
  | none => false

/-- Is the value a JSON string? (`typeof x === "string"`). -/
def isStrJson : Option Json → Bool
  | some (.str _) => true
  | _ => false

/-- The per-file check of `parseArtifact`:
`!file.path || typeof file.content !== "string"` rejects the file. -/
def fileOkJs (f : Json) : Bool :=
  truthyOpt (jsGetD f (chars "path")) && isStrJson (jsGetD f (chars "content"))

/-- The structural validation of `parseArtifact` after `JSON.parse`:
required keys truthy, `files` a non-empty array, every file accepted by
`fileOkJs`.  A `null` top-level value throws on property access and is
caught, yielding failure. -/
def validateArtifact (v : Json) : Option Json :=
  match v with
  | .null => none
  | _ =>
    if truthyOpt (jsGetD v (chars "artifact_type")) &&
        truthyOpt (jsGetD v (chars "language")) &&
        truthyOpt (jsGetD v (chars "files")) then
      match jsGetD v (chars "files") with
      | some (.arr items) =>
        if items.isEmpty then none
        else if items.all fileOkJs then some v else none
      | _ => none
    else none

/-! ## The extraction stage of `parseArtifact` -/

/-- The fence regex at one position: ` ``` `, an optional `json`, `\s*`,
then a lazy capture up to the next ` ``` `.  The optional `json` cannot
affect whether a closing fence exists (its letters are not backticks), so
no backtracking is needed. -/
def fenceTryAt (s : S) : Option S :=
  match litStrip (chars "\x60\x60\x60") s with
  | none => none
  | some t =>
    let t2 :=
      match litStrip (chars "json") t with
      | some u => u
      | none => t
    match splitAtSub (chars "\x60\x60\x60") (t2.dropWhile isJsWs) with
    | some r => some r.1
    | none => none

/-- Leftmost match of the markdown-fence regex
`/\x60\x60\x60(?:json)?\s*([\s\S]*?)\x60\x60\x60/`, returning the captured
group. -/
def fenceMatch : S → Option S
  | [] => none
  | c :: rest =>
    match fenceTryAt (c :: rest) with
    | some grp => some grp
    | none => fenceMatch rest

/-- The text-extraction stage of `parseArtifact`: trim, strip one markdown
fence when the regex matches, then slice from the first `\x7b` to the last
`\x7d` when both exist. -/
def extractJson (s : S) : S :=
  let t0 := trimJs s
  let t :=
    match fenceMatch t0 with
    | some inner => trimJs inner
    | none => t0
  match idxOfChar '\x7b' t, lastIdxOfChar '\x7d' t with
  | some i, some j => sliceJs t i (j + 1)
  | _, _ => t

/-- `parseArtifact` from `utils.ts`: extract, `JSON.parse`, validate; every
parse exception or structural violation yields `none`, and a successful
validation returns the parsed value itself (the TS `as Artifact` is only a
type assertion). -/
def parseArtifact (s : S) : Option Json :=
  match parseJsonTop (extractJson s) with
  | some v => validateArtifact v
  | none => none

/-! ## `JSON.stringify` on schema-level artifacts (modelled from the spec)

The spec's round-trip property quantifies over artifacts meeting the
schema, serialized to JSON; the repository itself has no serializer, so
`serializeArtifact` is modelled from the spec: `JSON.stringify` of the
artifact wire shape `artifact_type`, `language`, `files:[\x7bpath,content\x7d]`,
`run`. -/

/-- The wire string of an artifact type. -/
def ArtifactType.asString : ArtifactType → S
  | .frontend => chars "frontend"
  | .backend => chars "backend"
  | .hybrid => chars "hybrid"

/-- A hexadecimal digit character (lower case). -/
def hexDigitChar (n : Nat) : Char :=
  if n < 10 then Char.ofNat (48 + n) else Char.ofNat (87 + n)

/-- `JSON.stringify` escaping of one character. -/
def escapeJsonChar (c : Char) : S :=
  if c = '"' then ['\\', '"']
  else if c = '\\' then ['\\', '\\']
  else if c = '\x08' then ['\\', 'b']
  else if c = '\t' then ['\\', 't']
  else if c = '\n' then ['\\', 'n']
  else if c = '\x0c' then ['\\', 'f']
  else if c = '\r' then ['\\', 'r']
  else if c.toNat < 32 then
    ['\\', 'u', '0', '0', hexDigitChar (c.toNat / 16), hexDigitChar (c.toNat % 16)]
  else [c]

/-- `JSON.stringify` escaping of a string. -/
def escapeJson (s : S) : S :=
  s.foldr (fun c acc => escapeJsonChar c ++ acc) []

/-- A JSON string literal. -/
def strLitJson (s : S) : S := '"' :: (escapeJson s ++ ['"'])

/-- The serialized form of one artifact file. -/
def fileJsonStr (f : ArtifactFile) : S :=
  chars "\x7b\"path\":" ++ strLitJson f.path ++ chars ",\"content\":" ++
    strLitJson f.content ++ chars "\x7d"

/-- The serialized artifact, between the outer braces. -/
def serializeArtifactInner (a : Artifact) : S :=
  chars "\"artifact_type\":" ++ strLitJson a.artifact_type.asString ++
    chars ",\"language\":" ++ strLitJson a.language.asString ++
    chars ",\"files\":[" ++ joinWith (chars ",") (a.files.map fileJsonStr) ++
    chars "],\"run\":" ++
    (match a.run with
      | none => chars "null"
      | some r => strLitJson r)

/-- `JSON.stringify` of a schema-level artifact, declared field order. -/
def serializeArtifact (a : Artifact) : S :=
  '\x7b' :: (serializeArtifactInner a ++ ['\x7d'])

/-- The JSON value of one artifact file. -/
def fileToJson (f : ArtifactFile) : Json :=
  .obj [(chars "path", .str f.path), (chars "content", .str f.content)]

/-- The JSON value a schema-level artifact serializes (and parses back)
to. -/
def toJsonArtifact (a : Artifact) : Json :=
  .obj [(chars "artifact_type", .str a.artifact_type.asString),
    (chars "language", .str a.language.asString),
    (chars "files", .arr (a.files.map fileToJson)),
    (chars "run",
      match a.run with
      | none => .null
      | some r => .str r)]

/-! ## Concrete artifacts for the preview-compiler claims -/

/-- A React artifact with no HTML file whose source imports
`framer-motion`. -/
def framerArtifact : Artifact :=
  ⟨ArtifactType.frontend, ArtifactLanguage.react,
    [⟨chars "App.jsx",
      chars "import \x7b motion \x7d from \"framer-motion\";\n\nexport default function App() \x7b\n  return <div>hi</div>;\n\x7d\n"⟩],
    none⟩

/-- An HTML artifact whose document carries a `file://` script tag. -/
def fileScriptArtifact : Artifact :=
  ⟨ArtifactType.frontend, ArtifactLanguage.html,
    [⟨chars "index.html",
      chars "<html><head></head><body><script src=\"file://evil.js\"></script></body></html>"⟩],
    none⟩

/-- A React artifact whose only file is an HTML file with empty content. -/
def emptyHtmlReactArtifact : Artifact :=
  ⟨ArtifactType.frontend, ArtifactLanguage.react, [⟨chars "index.html", []⟩], none⟩

/-- A React artifact with a non-empty HTML file and a JSX file importing an
external npm package. -/
def htmlReactArtifact : Artifact :=
  ⟨ArtifactType.frontend, ArtifactLanguage.react,
    [⟨chars "index.html", chars "<h1>ok</h1>"⟩,
      ⟨chars "App.jsx", chars "import \x7b motion \x7d from \"framer-motion\";"⟩],
    none⟩

/-- A concrete open script tag with a `file://` source. -/
def fileScriptTagEx : S := chars "<script src=\"file://evil.js\">"

/-- A concrete meta-refresh tag. -/
def metaRefreshTagEx : S := chars "<meta http-equiv=\"refresh\">"

/-- A minimal schema-valid backend artifact used by the parser claims. -/
def simpleArtifact : Artifact :=
  ⟨ArtifactType.backend, ArtifactLanguage.python,
    [⟨chars "main.py", chars "print(1)"⟩], none⟩

/-- A schema-valid backend artifact whose file content contains a markdown
fence. -/
def fenceContentArtifact : Artifact :=
  ⟨ArtifactType.backend, ArtifactLanguage.python,
    [⟨chars "m", chars "\x60\x60\x60 x \x60\x60\x60"⟩], none⟩

/-- An artifact JSON text whose single file has the boolean path `true`
(truthy but not a string). -/
def truthyPathInput : S :=
  chars "\x7b\"artifact_type\":\"backend\",\"language\":\"python\",\"files\":[\x7b\"path\":true,\"content\":\"x\"\x7d],\"run\":null\x7d"

/-- The file value `JSON.parse` produces from `truthyPathInput`. -/
def truthyPathFileJson : Json :=
  Json.obj [(chars "path", Json.bool true), (chars "content", Json.str (chars "x"))]

/-- The artifact value `JSON.parse` produces from `truthyPathInput`. -/
def truthyPathJson : Json :=
  Json.obj [(chars "artifact_type", Json.str (chars "backend")),
    (chars "language", Json.str (chars "python")),
    (chars "files", Json.arr [truthyPathFileJson]),
    (chars "run", Json.null)]


/-! # Theorems -/

/-! ## Helper lemmas about the route traces -/

/-- The file-writing loop only performs `makeDir` and `writeFile` calls. -/
theorem writeFilesTrace_count_kill (o : SandboxOracle) (fs : List ArtifactFile) :
    (writeFilesTrace o fs).1.count SbEvent.kill = 0 := by
  induction fs with
  | nil => simp [writeFilesTrace]
  | cons f rest ih =>
    simp only [writeFilesTrace]
    cases h : o.writeOk f.path with
    | error e =>
      by_cases hd : dirOf f.path = [] <;>
        simp [hd, List.count_append, List.count_cons, List.count_nil]
    | ok u =>
      by_cases hd : dirOf f.path = [] <;>
        simp [hd, List.count_append, List.count_cons, ih]

/-- The file-writing loop performs no `createEnv` call. -/
theorem writeFilesTrace_count_create (o : SandboxOracle) (fs : List ArtifactFile) :
    (writeFilesTrace o fs).1.count SbEvent.createEnv = 0 := by
  induction fs with
  | nil => simp [writeFilesTrace]
  | cons f rest ih =>
    simp only [writeFilesTrace]
    cases h : o.writeOk f.path with
    | error e =>
      by_cases hd : dirOf f.path = [] <;>
        simp [hd, List.count_append, List.count_cons, List.count_nil]
    | ok u =>
      by_cases hd : dirOf f.path = [] <;>
        simp [hd, List.count_append, List.count_cons, ih]

/-- `runCodeArgs` distributes over append. -/
theorem runCodeArgs_append (xs ys : List SbEvent) :
    runCodeArgs (xs ++ ys) = runCodeArgs xs ++ runCodeArgs ys := by
  induction xs with
  | nil => rfl
  | cons e rest ih => cases e <;> simp [runCodeArgs, ih]

/-- The file-writing loop performs no `runCode` call. -/
theorem writeFilesTrace_runCodeArgs (o : SandboxOracle) (fs : List ArtifactFile) :
    runCodeArgs (writeFilesTrace o fs).1 = [] := by
  induction fs with
  | nil => simp [writeFilesTrace, runCodeArgs]
  | cons f rest ih =>
    simp only [writeFilesTrace]
    cases h : o.writeOk f.path with
    | error e =>
      by_cases hd : dirOf f.path = [] <;> simp [hd, runCodeArgs, runCodeArgs_append]
    | ok u =>
      by_cases hd : dirOf f.path = [] <;> simp [hd, runCodeArgs, runCodeArgs_append, ih]

/-- A `runCode` event of a trace appears among its `runCodeArgs`. -/
theorem mem_runCodeArgs {c l : S} {evs : List SbEvent}
    (h : SbEvent.runCode c l ∈ evs) : (c, l) ∈ runCodeArgs evs := by
  induction evs with
  | nil => cases h
  | cons e rest ih =>
    rcases List.mem_cons.mp h with h1 | h2
    · cases h1; simp [runCodeArgs]
    · cases e <;> simp [runCodeArgs, ih h2]

/-- When sandbox creation succeeds, the stream body's trace kills exactly
once, whatever else happens. -/
theorem streamRun_count_kill (o : SandboxOracle) (a : Artifact)
    (hc : o.createOk = Except.ok ()) :
    (streamRun o a).2.count SbEvent.kill = 1 := by
  unfold streamRun
  rw [hc]
  cases hw : (writeFilesTrace o a.files).2 with
  | some e =>
    simp [hw, List.count_append, List.count_cons, writeFilesTrace_count_kill]
  | none =>
    cases hf : a.files with
    | nil =>
      rw [hf] at hw
      simp [hw, hf, List.count_append, List.count_cons, writeFilesTrace_count_kill]
    | cons mainFile rest =>
      rw [hf] at hw
      cases hr : o.runResult <;>
        simp [hw, hf, hr, List.count_append, List.count_cons, writeFilesTrace_count_kill]

/-- The buffering route's inner executor never kills (that is its caller's
`finally` block). -/
theorem executeInSandbox_count_kill (o : SandboxOracle) (a : Artifact) :
    (executeInSandbox o a).2.count SbEvent.kill = 0 := by
  unfold executeInSandbox
  cases hw : (writeFilesTrace o a.files).2 with
  | some e => simp [hw, writeFilesTrace_count_kill]
  | none =>
    cases hf : a.files with
    | nil =>
      rw [hf] at hw
      simp [hw, hf, writeFilesTrace_count_kill]
    | cons mainFile rest =>
      rw [hf] at hw
      cases hr : o.runResult <;>
        simp [hw, hf, hr, List.count_append, List.count_cons, writeFilesTrace_count_kill]

/-! ## C1 — frontend artifacts are rejected before provisioning -/

/-- C1: for every request whose artifact has `artifact_type = "frontend"`
or a language classified as frontend, both execution routes return an error
response and the trace contains zero `create-environment` calls. -/
theorem frontend_artifact_rejected_without_provisioning
    (o : SandboxOracle) (req : ApiRequest) (key : Option S) (b : ExecBody) (a : Artifact)
    (hbody : req.body = Except.ok b) (ha : b.artifact = some a)
    (hfront : a.artifact_type = ArtifactType.frontend ∨ isFrontendLanguage a.language = true) :
    ((streamPOST o req key).1.isError = true ∧
      (streamPOST o req key).2.count SbEvent.createEnv = 0) ∧
    ((executePOST o req key).1.isError = true ∧
      (executePOST o req key).2.count SbEvent.createEnv = 0) := by
  have hcond : (a.artifact_type == ArtifactType.frontend ||
      isFrontendLanguage a.language) = true := by
    rcases hfront with h | h
    · simp [h]
    · simp [h]
  constructor
  · unfold streamPOST
    cases hauth : req.authed with
    | false => simp [StreamResponse.isError]
    | true => simp [hauth, hbody, ha, hcond, StreamResponse.isError]
  · unfold executePOST
    cases hauth : req.authed with
    | false => simp [ExecRouteResponse.isError]
    | true => simp [hauth, hbody, ha, hcond, ExecRouteResponse.isError]

/-- Witness for C1, at the spec's own example artifact
`\x7bartifact_type:"frontend", language:"html", files:[...], run:null\x7d`. -/
theorem frontend_artifact_rejected_without_provisioning_witness :
    ((streamPOST oracleAllOk (reqWith frontendHtmlArtifact) (some (chars "k"))).1.isError = true ∧
      (streamPOST oracleAllOk (reqWith frontendHtmlArtifact) (some (chars "k"))).2.count
        SbEvent.createEnv = 0) ∧
    ((executePOST oracleAllOk (reqWith frontendHtmlArtifact) (some (chars "k"))).1.isError = true ∧
      (executePOST oracleAllOk (reqWith frontendHtmlArtifact) (some (chars "k"))).2.count
        SbEvent.createEnv = 0) :=
  frontend_artifact_rejected_without_provisioning oracleAllOk
    (reqWith frontendHtmlArtifact) (some (chars "k"))
    ⟨some frontendHtmlArtifact⟩ frontendHtmlArtifact rfl rfl (Or.inl rfl)

/-! ## C2 — the sandbox is killed exactly once -/

/-- C2: whenever a remote environment was actually created (a
`createEnv` call appears in the trace and creation succeeded), the trace of
either route contains exactly one `kill` call — both when `runCode`
succeeds and when it, or any later step, throws. -/
theorem sandbox_killed_exactly_once
    (o : SandboxOracle) (req : ApiRequest) (key : Option S)
    (hc : o.createOk = Except.ok ()) :
    (SbEvent.createEnv ∈ (streamPOST o req key).2 →
      (streamPOST o req key).2.count SbEvent.kill = 1) ∧
    (SbEvent.createEnv ∈ (executePOST o req key).2 →
      (executePOST o req key).2.count SbEvent.kill = 1) := by
  constructor
  · unfold streamPOST
    cases hauth : req.authed with
    | false => intro h; simp at h
    | true =>
      cases hbody : req.body with
      | error e => intro h; simp [hauth, hbody] at h
      | ok body =>
        cases ha : body.artifact with
        | none => intro h; simp [hauth, hbody, ha] at h
        | some artifact =>
          by_cases hfront : (artifact.artifact_type == ArtifactType.frontend ||
              isFrontendLanguage artifact.language) = true
          · intro h; simp [hauth, hbody, ha, hfront] at h
          · cases hkey : key with
            | none => intro h; simp [hauth, hbody, ha, hfront] at h
            | some k =>
              intro _
              simp only [hauth, hbody, ha, hfront, hkey]
              simpa using streamRun_count_kill o artifact hc
  · unfold executePOST
    cases hauth : req.authed with
    | false => intro h; simp at h
    | true =>
      cases hbody : req.body with
      | error e => intro h; simp [hauth, hbody] at h
      | ok body =>
        cases ha : body.artifact with
        | none => intro h; simp [hauth, hbody, ha] at h
        | some artifact =>
          by_cases hfront : (artifact.artifact_type == ArtifactType.frontend ||
              isFrontendLanguage artifact.language) = true
          · intro h; simp [hauth, hbody, ha, hfront] at h
          · cases hkey : key with
            | none => intro h; simp [hauth, hbody, ha, hfront] at h
            | some k =>
              intro _
              simp only [hauth, hbody, ha, hfront, hkey, hc]
              simp [List.count_append, List.count_cons, executeInSandbox_count_kill]

/-- Witness for C2: a successful run on the streaming route and a run whose
`runCode` call throws on the buffering route each kill exactly once. -/
theorem sandbox_killed_exactly_once_witness :
    (streamPOST oracleAllOk (reqWith pythonArtifact) (some (chars "k"))).2.count
      SbEvent.kill = 1 ∧
    (executePOST oracleRunThrows (reqWith pythonArtifact) (some (chars "k"))).2.count
      SbEvent.kill = 1 :=
  ⟨(sandbox_killed_exactly_once oracleAllOk (reqWith pythonArtifact)
      (some (chars "k")) rfl).1 (by decide),
    (sandbox_killed_exactly_once oracleRunThrows (reqWith pythonArtifact)
      (some (chars "k")) rfl).2 (by decide)⟩

/-! ## C9 — the stream ends with exactly one `done` chunk -/

/-- Mapping strings to `stdout` chunks contributes no `done` chunk. -/
theorem countP_done_map_stdout (l : List S) :
    List.countP ((fun c => c.type == ChunkType.done) ∘ fun s => Chunk.mk ChunkType.stdout s)
      l = 0 := by
  simp [List.countP_eq_zero, Function.comp]

/-- Mapping strings to `stderr` chunks contributes no `done` chunk. -/
theorem countP_done_map_stderr (l : List S) :
    List.countP ((fun c => c.type == ChunkType.done) ∘ fun s => Chunk.mk ChunkType.stderr s)
      l = 0 := by
  simp [List.countP_eq_zero, Function.comp]

/-- The catch branch contributes exactly one `done` chunk, at the end. -/
theorem catch_chunks_done (xs : List Chunk) (m : S) :
    doneCount (xs ++ streamCatchChunks m) = doneCount xs + 1 ∧
    ((xs ++ streamCatchChunks m).getLast?.map Chunk.type = some ChunkType.done) := by
  constructor
  · simp [doneCount, streamCatchChunks, List.countP_append, List.countP_cons]
  · rw [show xs ++ streamCatchChunks m =
      (xs ++ [Chunk.mk .error m]) ++ [Chunk.mk .done (chars "Execution failed")] by
        simp [streamCatchChunks]]
    simp [List.getLast?_concat]

/-- The post-`runCode` chunks contribute exactly one `done` chunk, at the
end. -/
theorem run_chunks_done (xs : List Chunk) (ex : Execution) :
    doneCount (xs ++ streamRunChunks ex) = doneCount xs + 1 ∧
    ((xs ++ streamRunChunks ex).getLast?.map Chunk.type = some ChunkType.done) := by
  constructor
  · cases ht : ex.text with
    | none =>
      cases he : ex.error with
      | none =>
        simp [doneCount, streamRunChunks, ht, he, List.countP_append, List.countP_cons,
          List.countP_map, Function.comp, countP_done_map_stdout, countP_done_map_stderr]
      | some err =>
        cases htb : err.traceback <;>
          simp [doneCount, streamRunChunks, ht, he, htb, List.countP_append,
            List.countP_cons, List.countP_map, Function.comp, countP_done_map_stdout,
            countP_done_map_stderr]
    | some t =>
      cases he : ex.error with
      | none =>
        by_cases h0 : t = [] <;>
          simp [doneCount, streamRunChunks, ht, he, h0, List.countP_append,
            List.countP_cons, List.countP_map, Function.comp, countP_done_map_stdout,
            countP_done_map_stderr]
      | some err =>
        cases htb : err.traceback <;> by_cases h0 : t = [] <;>
          simp [doneCount, streamRunChunks, ht, he, htb, h0, List.countP_append,
            List.countP_cons, List.countP_map, Function.comp, countP_done_map_stdout,
            countP_done_map_stderr]
  · rw [show xs ++ streamRunChunks ex =
      (xs ++ ((match ex.text with
        | some t => if t = [] then [] else [Chunk.mk .stdout t]
        | none => []) ++
      ex.logs.stdout.map (fun l => Chunk.mk .stdout l) ++
      ex.logs.stderr.map (fun l => Chunk.mk .stderr l) ++
      (match ex.error with
        | some err =>
          Chunk.mk .error (err.name ++ chars ": " ++ err.value) ::
            (match err.traceback with
              | some tb => [Chunk.mk .stderr tb]
              | none => [])
        | none => []))) ++
      [Chunk.mk .done
        (match ex.error with
          | some _ => chars "Execution failed"
          | none => chars "Execution complete")] by
        simp [streamRunChunks]]
    simp [List.getLast?_concat]

/-- C9: for every streamed execution session — success, runtime failure, or
a throwing provisioning/write/`runCode` step — the emitted chunk sequence
contains exactly one `done` chunk and that chunk is the final one. -/
theorem stream_ends_with_exactly_one_done (o : SandboxOracle) (a : Artifact) :
    doneCount (streamRun o a).1 = 1 ∧
    ((streamRun o a).1.getLast?.map Chunk.type = some ChunkType.done) := by
  unfold streamRun
  cases hc : o.createOk with
  | error e =>
    refine ⟨?_, ?_⟩
    · simpa [doneCount] using
        (catch_chunks_done [Chunk.mk .status (chars "Creating sandbox...")] e).1
    · simpa using
        (catch_chunks_done [Chunk.mk .status (chars "Creating sandbox...")] e).2
  | ok u =>
    cases hw : (writeFilesTrace o a.files).2 with
    | some e =>
      refine ⟨?_, ?_⟩
      · simp only [hw]
        simpa [doneCount] using
          (catch_chunks_done [Chunk.mk .status (chars "Creating sandbox..."),
            Chunk.mk .status (chars "Writing files...")] e).1
      · simp only [hw]
        simpa using
          (catch_chunks_done [Chunk.mk .status (chars "Creating sandbox..."),
            Chunk.mk .status (chars "Writing files...")] e).2
    | none =>
      cases hf : a.files with
      | nil =>
        rw [hf] at hw
        refine ⟨?_, ?_⟩
        · simp only [hf, hw]
          simpa [doneCount] using
            (catch_chunks_done [Chunk.mk .status (chars "Creating sandbox..."),
              Chunk.mk .status (chars "Writing files...")] (chars "No files to execute")).1
        · simp only [hf, hw]
          simpa using
            (catch_chunks_done [Chunk.mk .status (chars "Creating sandbox..."),
              Chunk.mk .status (chars "Writing files...")] (chars "No files to execute")).2
      | cons mainFile rest =>
        rw [hf] at hw
        cases hr : o.runResult with
        | error e =>
          refine ⟨?_, ?_⟩
          · simp only [hf, hw, hr]
            simpa [doneCount] using
              (catch_chunks_done [Chunk.mk .status (chars "Creating sandbox..."),
                Chunk.mk .status (chars "Writing files..."),
                Chunk.mk .status
                  (chars "Executing " ++ a.language.asString ++ chars " code...")] e).1
          · simp only [hf, hw, hr]
            simpa using
              (catch_chunks_done [Chunk.mk .status (chars "Creating sandbox..."),
                Chunk.mk .status (chars "Writing files..."),
                Chunk.mk .status
                  (chars "Executing " ++ a.language.asString ++ chars " code...")] e).2
        | ok ex =>
          refine ⟨?_, ?_⟩
          · simp only [hf, hw, hr]
            simpa [doneCount] using
              (run_chunks_done [Chunk.mk .status (chars "Creating sandbox..."),
                Chunk.mk .status (chars "Writing files..."),
                Chunk.mk .status
                  (chars "Executing " ++ a.language.asString ++ chars " code...")] ex).1
          · simp only [hf, hw, hr]
            simpa using
              (run_chunks_done [Chunk.mk .status (chars "Creating sandbox..."),
                Chunk.mk .status (chars "Writing files..."),
                Chunk.mk .status
                  (chars "Executing " ++ a.language.asString ++ chars " code...")] ex).2


/-! ## C6 — entry-file and runtime selection (corrected) -/

/-- C6 counterexample: a backend bash artifact is executed under the
`"python"` runtime, not a bash runtime — the route maps every non-`node`
language to python. -/
theorem bash_artifact_runs_under_python_runtime :
    runCodeArgs (executeInSandbox oracleAllOk bashArtifact).2 =
      [(chars "echo hi", chars "python")] ∧
    chars "python" ≠ chars "bash" := by
  constructor
  · decide
  · decide

/-- C6 amended: the code executed is always the content of the first
declared file — the `run` command is ignored entirely (both routes are
invariant under changing it) — and the runtime passed to the sandbox is
`"js"` for `node` artifacts and `"python"` for every other language,
including `bash`. -/
theorem executed_code_first_file_and_runtime_mapping
    (o : SandboxOracle) (a : Artifact) (code lang : S)
    (hmem : SbEvent.runCode code lang ∈ (executeInSandbox o a).2 ∨
      SbEvent.runCode code lang ∈ (streamRun o a).2) :
    (∃ f rest, a.files = f :: rest ∧ code = f.content ∧ lang = e2bLang a.language) ∧
    (∀ r, executeInSandbox o (a.setRun r) = executeInSandbox o a ∧
      streamRun o (a.setRun r) = streamRun o a) := by
  constructor
  · rcases hmem with h | h
    · have hargs := mem_runCodeArgs h
      unfold executeInSandbox at hargs
      cases hw : (writeFilesTrace o a.files).2 with
      | some e =>
        simp only [hw, writeFilesTrace_runCodeArgs] at hargs
        cases hargs
      | none =>
        simp only [hw] at hargs
        cases hf : a.files with
        | nil =>
          simp only [hf, writeFilesTrace_runCodeArgs] at hargs
          cases hargs
        | cons mainFile rest =>
          simp only [hf] at hargs
          cases hr : o.runResult with
          | error e =>
            simp [hr, runCodeArgs, runCodeArgs_append, writeFilesTrace_runCodeArgs,
              Prod.mk.injEq] at hargs
            exact ⟨mainFile, rest, rfl, hargs.1, hargs.2⟩
          | ok ex =>
            simp [hr, runCodeArgs, runCodeArgs_append, writeFilesTrace_runCodeArgs,
              Prod.mk.injEq] at hargs
            exact ⟨mainFile, rest, rfl, hargs.1, hargs.2⟩
    · have hargs := mem_runCodeArgs h
      unfold streamRun at hargs
      cases hc : o.createOk with
      | error e =>
        simp only [hc, runCodeArgs] at hargs
        cases hargs
      | ok u =>
        simp only [hc] at hargs
        cases hw : (writeFilesTrace o a.files).2 with
        | some e =>
          simp [hw, runCodeArgs, runCodeArgs_append, writeFilesTrace_runCodeArgs] at hargs
        | none =>
          simp only [hw] at hargs
          cases hf : a.files with
          | nil =>
            simp [hf, runCodeArgs, runCodeArgs_append, writeFilesTrace_runCodeArgs] at hargs
          | cons mainFile rest =>
            simp only [hf] at hargs
            cases hr : o.runResult with
            | error e =>
              simp [hr, runCodeArgs, runCodeArgs_append, writeFilesTrace_runCodeArgs,
                Prod.mk.injEq] at hargs
              exact ⟨mainFile, rest, rfl, hargs.1, hargs.2⟩
            | ok ex =>
              simp [hr, runCodeArgs, runCodeArgs_append, writeFilesTrace_runCodeArgs,
                Prod.mk.injEq] at hargs
              exact ⟨mainFile, rest, rfl, hargs.1, hargs.2⟩
  · intro r
    exact ⟨rfl, rfl⟩

/-! ## Round-trip lemmas: the JSON parser inverts the serializer -/

/-- `Char.ofNat` inverts `Char.toNat` on control characters. -/
theorem charOfNat_toNat_small (c : Char) (h : c.toNat < 32) : Char.ofNat c.toNat = c := by
  have h2 : Nat.isValidChar c.toNat := Or.inl (by omega)
  rw [Char.ofNat, dif_pos h2]
  apply Char.ext
  simp only [Char.ofNatAux, Char.toNat, UInt32.ofNat']
  apply UInt32.ext
  simp [UInt32.toNat]

/-- `parseHexDigit` inverts `hexDigitChar` below 16. -/
theorem parseHexDigit_hexDigitChar (n : Nat) (h : n < 16) :
    parseHexDigit (hexDigitChar n) = some n := by
  interval_cases n <;> decide

/-- A character kept by `dropWhile` keeps the whole list. -/
theorem dropWhile_cons_of_false {p : Char → Bool} {c : Char} (t : S) (h : p c = false) :
    (c :: t).dropWhile p = c :: t := by
  simp [List.dropWhile_cons, h]

/-- String-body round trip: parsing the escaped text up to the closing
quote recovers the original text. -/
theorem parseStringBody_escape (s : S) (rest : S) :
    parseStringBody (escapeJson s ++ '"' :: rest) = some (s, rest) := by
  induction s with
  | nil =>
    rw [show escapeJson [] ++ '"' :: rest = '"' :: rest from rfl, parseStringBody.eq_def]
    simp
  | cons c s ih =>
    have he : escapeJson (c :: s) ++ '"' :: rest =
        escapeJsonChar c ++ (escapeJson s ++ '"' :: rest) := by
      simp [escapeJson, List.append_assoc]
    rw [he]
    by_cases h1 : c = '"'
    · subst h1
      rw [show escapeJsonChar '"' = ['\\', '"'] from rfl, List.cons_append,
        List.cons_append, List.nil_append, parseStringBody.eq_def]
      simp [escapeMeaning, ih]
    · by_cases h2 : c = '\\'
      · subst h2
        rw [show escapeJsonChar '\\' = ['\\', '\\'] from rfl, List.cons_append,
          List.cons_append, List.nil_append, parseStringBody.eq_def]
        simp [escapeMeaning, ih]
      · by_cases hb : c = '\x08'
        · subst hb
          rw [show escapeJsonChar '\x08' = ['\\', 'b'] from rfl, List.cons_append,
            List.cons_append, List.nil_append, parseStringBody.eq_def]
          simp [escapeMeaning, ih]
        · by_cases htb : c = '\t'
          · subst htb
            rw [show escapeJsonChar '\t' = ['\\', 't'] from rfl, List.cons_append,
              List.cons_append, List.nil_append, parseStringBody.eq_def]
            simp [escapeMeaning, ih]
          · by_cases hn : c = '\n'
            · subst hn
              rw [show escapeJsonChar '\n' = ['\\', 'n'] from rfl, List.cons_append,
                List.cons_append, List.nil_append, parseStringBody.eq_def]
              simp [escapeMeaning, ih]
            · by_cases hf : c = '\x0c'
              · subst hf
                rw [show escapeJsonChar '\x0c' = ['\\', 'f'] from rfl, List.cons_append,
                  List.cons_append, List.nil_append, parseStringBody.eq_def]
                simp [escapeMeaning, ih]
              · by_cases hr : c = '\r'
                · subst hr
                  rw [show escapeJsonChar '\r' = ['\\', 'r'] from rfl, List.cons_append,
                    List.cons_append, List.nil_append, parseStringBody.eq_def]
                  simp [escapeMeaning, ih]
                · by_cases hc : c.toNat < 32
                  · rw [show escapeJsonChar c =
                        ['\\', 'u', '0', '0', hexDigitChar (c.toNat / 16),
                          hexDigitChar (c.toNat % 16)] from by
                      simp [escapeJsonChar, h1, h2, hb, htb, hn, hf, hr, hc]]
                    have hd1 : parseHexDigit (hexDigitChar (c.toNat / 16)) =
                        some (c.toNat / 16) :=
                      parseHexDigit_hexDigitChar _ (by omega)
                    have hd0 : parseHexDigit (hexDigitChar (c.toNat % 16)) =
                        some (c.toNat % 16) :=
                      parseHexDigit_hexDigitChar _ (by omega)
                    have hval : 16 * (c.toNat / 16) + c.toNat % 16 = c.toNat := by
                      omega
                    have h00 : parseHexDigit '0' = some 0 := by decide
                    rw [List.cons_append, List.cons_append, List.cons_append,
                      List.cons_append, List.cons_append, List.cons_append,
                      List.nil_append, parseStringBody.eq_def]
                    simp [h00, hd1, hd0, ih, hval, charOfNat_toNat_small c hc]
                  · rw [show escapeJsonChar c = [c] from by
                      simp [escapeJsonChar, h1, h2, hb, htb, hn, hf, hr, hc],
                      List.cons_append, List.nil_append, parseStringBody.eq_def]
                    simp [h1, h2, hc, ih]

/-- A serialized string literal parses as a string value. -/
theorem parseValue_strLit (n : Nat) (s rest : S) :
    parseValue (n + 1) (strLitJson s ++ rest) = some (Json.str s, rest) := by
  have h1 : strLitJson s ++ rest = '"' :: (escapeJson s ++ '"' :: rest) := by
    simp [strLitJson, List.append_assoc]
  rw [h1]
  have step : parseValue (n + 1) ('"' :: (escapeJson s ++ '"' :: rest)) =
      Option.map (fun r => (Json.str r.1, r.2))
        (parseStringBody (escapeJson s ++ '"' :: rest)) := rfl
  rw [step, parseStringBody_escape]
  rfl

/-- One-step unfolding of `parseFields` at a key whose first character is
the opening quote. -/
theorem parseFields_step (n : Nat) (keyRaw : S) :
    parseFields (n + 1) ('"' :: keyRaw) =
      (match parseStringBody keyRaw with
        | none => none
        | some (k, r1) =>
          match r1.dropWhile isJsonWs with
          | ':' :: r2 =>
            (match parseValue n r2 with
              | none => none
              | some (v, r3) =>
                match r3.dropWhile isJsonWs with
                | ',' :: r4 => (parseFields n r4).map (fun r => ((k, v) :: r.1, r.2))
                | '\x7d' :: r4 => some ([(k, v)], r4)
                | _ => none)
          | _ => none) := rfl

/-- A final object member: key, value, then the closing brace. -/
theorem parseFields_step_close (n : Nat) (keyRaw keyVal T : S) (v : Json) (r4 : S)
    (hkey : parseStringBody keyRaw = some (keyVal, ':' :: T))
    (hval : parseValue n T = some (v, '\x7d' :: r4)) :
    parseFields (n + 1) ('"' :: keyRaw) = some ([(keyVal, v)], r4) := by
  rw [parseFields_step, hkey]
  show (match parseValue n T with
        | none => none
        | some (v, r3) =>
          match r3.dropWhile isJsonWs with
          | ',' :: r4 => (parseFields n r4).map (fun r => ((keyVal, v) :: r.1, r.2))
          | '\x7d' :: r4 => some ([(keyVal, v)], r4)
          | _ => none) = some ([(keyVal, v)], r4)
  rw [hval]
  rfl

/-- A non-final object member: key, value, then a comma and the remaining
members. -/
theorem parseFields_step_comma (n : Nat) (keyRaw keyVal T : S) (v : Json) (r4 : S)
    (hkey : parseStringBody keyRaw = some (keyVal, ':' :: T))
    (hval : parseValue n T = some (v, ',' :: r4)) :
    parseFields (n + 1) ('"' :: keyRaw) =
      (parseFields n r4).map (fun r => ((keyVal, v) :: r.1, r.2)) := by
  rw [parseFields_step, hkey]
  show (match parseValue n T with
        | none => none
        | some (v, r3) =>
          match r3.dropWhile isJsonWs with
          | ',' :: r4 => (parseFields n r4).map (fun r => ((keyVal, v) :: r.1, r.2))
          | '\x7d' :: r4 => some ([(keyVal, v)], r4)
          | _ => none) =
      (parseFields n r4).map (fun r => ((keyVal, v) :: r.1, r.2))
  rw [hval]
  rfl

/-- One-step unfolding of `parseValue` at a non-empty object literal. -/
theorem parseValue_obj_step (n : Nat) (W : S) :
    parseValue (n + 1) ('\x7b' :: '"' :: W) =
      (parseFields n ('"' :: W)).map (fun r => (Json.obj r.1, r.2)) := rfl

/-- One-step unfolding of `parseValue` at an array whose first element is an
object literal. -/
theorem parseValue_arr_step (n : Nat) (W : S) :
    parseValue (n + 1) ('[' :: '\x7b' :: W) =
      (parseItems n ('\x7b' :: W)).map (fun r => (Json.arr r.1, r.2)) := rfl

/-- One-step unfolding of `parseItems`. -/
theorem parseItems_step (n : Nat) (s : S) :
    parseItems (n + 1) s =
      (match parseValue n s with
        | none => none
        | some (v, r1) =>
          match r1.dropWhile isJsonWs with
          | ',' :: r2 => (parseItems n r2).map (fun r => (v :: r.1, r.2))
          | ']' :: r2 => some ([v], r2)
          | _ => none) := rfl

/-- The literal `null` parses as the null value. -/
theorem parseValue_null (n : Nat) (rest : S) :
    parseValue (n + 1) ('n' :: 'u' :: 'l' :: 'l' :: rest) = some (Json.null, rest) := rfl

/-- A serialized artifact file parses back to its JSON value. -/
theorem parseValue_fileJson (n : Nat) (f : ArtifactFile) (rest : S) :
    parseValue (n + 4) (fileJsonStr f ++ rest) = some (fileToJson f, rest) := by
  have hshape : fileJsonStr f ++ rest =
      '\x7b' :: '"' :: 'p' :: 'a' :: 't' :: 'h' :: '"' :: ':' ::
        (strLitJson f.path ++ ',' :: '"' :: 'c' :: 'o' :: 'n' :: 't' :: 'e' :: 'n' :: 't' ::
          '"' :: ':' :: (strLitJson f.content ++ '\x7d' :: rest)) := by
    simp only [fileJsonStr, List.append_assoc]
    rfl
  rw [hshape, show n + 4 = n + 3 + 1 from rfl, parseValue_obj_step (n + 3)]
  have hkey1 : parseStringBody ('p' :: 'a' :: 't' :: 'h' :: '"' :: ':' ::
      (strLitJson f.path ++ ',' :: '"' :: 'c' :: 'o' :: 'n' :: 't' :: 'e' :: 'n' :: 't' ::
        '"' :: ':' :: (strLitJson f.content ++ '\x7d' :: rest))) =
      some (chars "path", ':' ::
        (strLitJson f.path ++ ',' :: '"' :: 'c' :: 'o' :: 'n' :: 't' :: 'e' :: 'n' :: 't' ::
          '"' :: ':' :: (strLitJson f.content ++ '\x7d' :: rest))) :=
    parseStringBody_escape (chars "path") _
  have hval1 : parseValue (n + 2)
      (strLitJson f.path ++ ',' :: '"' :: 'c' :: 'o' :: 'n' :: 't' :: 'e' :: 'n' :: 't' ::
        '"' :: ':' :: (strLitJson f.content ++ '\x7d' :: rest)) =
      some (Json.str f.path, ',' :: '"' :: 'c' :: 'o' :: 'n' :: 't' :: 'e' :: 'n' :: 't' ::
        '"' :: ':' :: (strLitJson f.content ++ '\x7d' :: rest)) :=
    parseValue_strLit (n + 1) f.path _
  rw [show n + 3 = n + 2 + 1 from rfl, parseFields_step_comma (n + 2) _ _ _ _ _ hkey1 hval1]
  have hkey2 : parseStringBody ('c' :: 'o' :: 'n' :: 't' :: 'e' :: 'n' :: 't' :: '"' :: ':' ::
      (strLitJson f.content ++ '\x7d' :: rest)) =
      some (chars "content", ':' :: (strLitJson f.content ++ '\x7d' :: rest)) :=
    parseStringBody_escape (chars "content") _
  have hval2 : parseValue (n + 1) (strLitJson f.content ++ '\x7d' :: rest) =
      some (Json.str f.content, '\x7d' :: rest) :=
    parseValue_strLit n f.content _
  rw [show n + 2 = n + 1 + 1 from rfl, parseFields_step_close (n + 1) _ _ _ _ _ hkey2 hval2]
  rfl


/-- A serialized comma-separated file list followed by the closing bracket
parses back to the list of file values. -/
theorem parseItems_files (fs : List ArtifactFile) : ∀ (f : ArtifactFile) (n : Nat) (rest : S),
    parseItems (n + 5 * fs.length + 5)
      (joinWith (chars ",") ((f :: fs).map fileJsonStr) ++ ']' :: rest) =
      some ((f :: fs).map fileToJson, rest) := by
  induction fs with
  | nil =>
    intro f n rest
    have hj : joinWith (chars ",") ((f :: ([] : List ArtifactFile)).map fileJsonStr) ++
        ']' :: rest = fileJsonStr f ++ ']' :: rest := rfl
    rw [hj, show n + 5 * ([] : List ArtifactFile).length + 5 = (n + 4) + 1 from by
      simp, parseItems_step (n + 4), parseValue_fileJson n f (']' :: rest)]
    rfl
  | cons g gs ih =>
    intro f n rest
    have hj : joinWith (chars ",") ((f :: g :: gs).map fileJsonStr) ++ ']' :: rest =
        fileJsonStr f ++ ',' ::
          (joinWith (chars ",") ((g :: gs).map fileJsonStr) ++ ']' :: rest) := by
      simp only [List.map_cons, joinWith, List.append_assoc]
      rfl
    rw [hj, show n + 5 * (g :: gs).length + 5 = ((n + 4) + 5 * gs.length + 5) + 1 from by
      simp [List.length_cons]; ring]
    rw [parseItems_step ((n + 4) + 5 * gs.length + 5)]
    have hv : parseValue ((n + 4) + 5 * gs.length + 5)
        (fileJsonStr f ++ ',' ::
          (joinWith (chars ",") ((g :: gs).map fileJsonStr) ++ ']' :: rest)) =
        some (fileToJson f, ',' ::
          (joinWith (chars ",") ((g :: gs).map fileJsonStr) ++ ']' :: rest)) :=
      parseValue_fileJson ((n + 4) + 5 * gs.length + 1) f _
    rw [hv]
    show (parseItems ((n + 4) + 5 * gs.length + 5)
        (joinWith (chars ",") ((g :: gs).map fileJsonStr) ++ ']' :: rest)).map
        (fun r => (fileToJson f :: r.1, r.2)) =
      some ((f :: g :: gs).map fileToJson, rest)
    rw [ih g (n + 4) rest]
    rfl


/-- A serialized non-empty file array (with its opening bracket) parses back
to the array of file values. -/
theorem parseValue_filesArr (n : Nat) (f : ArtifactFile) (fs : List ArtifactFile) (rest : S) :
    parseValue (n + 5 * fs.length + 6)
      ('[' :: (joinWith (chars ",") ((f :: fs).map fileJsonStr) ++ ']' :: rest)) =
      some (Json.arr ((f :: fs).map fileToJson), rest) := by
  have hJ : joinWith (chars ",") ((f :: fs).map fileJsonStr) ++ ']' :: rest =
      '\x7b' :: (joinWith (chars ",") ((f :: fs).map fileJsonStr) ++ ']' :: rest).tail := by
    cases fs <;> rfl
  rw [hJ, show n + 5 * fs.length + 6 = n + 5 * fs.length + 5 + 1 from rfl,
    parseValue_arr_step (n + 5 * fs.length + 5), ← hJ, parseItems_files fs f n rest]
  rfl

/-- An object member holding a string value, followed by a comma and further
members. -/
theorem parseFields_strField (n : Nat) (key val : S) (rest2 : S) :
    parseFields (n + 2)
      ('"' :: (escapeJson key ++ '"' :: ':' :: (strLitJson val ++ ',' :: rest2))) =
      (parseFields (n + 1) rest2).map (fun r => ((key, Json.str val) :: r.1, r.2)) :=
  parseFields_step_comma (n + 1) _ _ _ _ _ (parseStringBody_escape key _)
    (parseValue_strLit n val _)

/-- Round trip: a serialized artifact parses back (with any fuel of the
stated shape) to its JSON value. -/
theorem parseValue_serialize (q : Nat) (a : Artifact) (f : ArtifactFile)
    (fs : List ArtifactFile) (hfiles : a.files = f :: fs) (rest : S) :
    parseValue (q + 5 * fs.length + 10) (serializeArtifact a ++ rest) =
      some (toJsonArtifact a, rest) := by
  cases hrun : a.run with
  | none =>
    have hshape : serializeArtifact a ++ rest =
        '\x7b' :: '"' :: (escapeJson (chars "artifact_type") ++ '"' :: ':' ::
          (strLitJson a.artifact_type.asString ++ ',' ::
            '"' :: (escapeJson (chars "language") ++ '"' :: ':' ::
              (strLitJson a.language.asString ++ ',' ::
                '"' :: (escapeJson (chars "files") ++ '"' :: ':' ::
                  ('[' :: (joinWith (chars ",") ((f :: fs).map fileJsonStr) ++ ']' :: ',' ::
                    '"' :: (escapeJson (chars "run") ++ '"' :: ':' ::
                      ('n' :: 'u' :: 'l' :: 'l' :: '\x7d' :: rest))))))))) := by
      rw [show serializeArtifact a =
          '\x7b' :: (serializeArtifactInner a ++ ['\x7d']) from rfl,
        show serializeArtifactInner a =
          chars "\"artifact_type\":" ++ strLitJson a.artifact_type.asString ++
            chars ",\"language\":" ++ strLitJson a.language.asString ++
            chars ",\"files\":[" ++ joinWith (chars ",") (a.files.map fileJsonStr) ++
            chars "],\"run\":" ++
            (match a.run with
              | none => chars "null"
              | some r => strLitJson r) from rfl,
        hfiles, hrun]
      simp only [List.append_assoc, List.cons_append, List.singleton_append,
        List.nil_append]
      rfl
    rw [hshape, show q + 5 * fs.length + 10 = q + 5 * fs.length + 9 + 1 from rfl,
      parseValue_obj_step (q + 5 * fs.length + 9),
      show q + 5 * fs.length + 9 = q + 5 * fs.length + 7 + 2 from rfl,
      parseFields_strField (q + 5 * fs.length + 7) (chars "artifact_type")
        a.artifact_type.asString _,
      show q + 5 * fs.length + 7 + 1 = q + 5 * fs.length + 6 + 2 from rfl,
      parseFields_strField (q + 5 * fs.length + 6) (chars "language")
        a.language.asString _]
    have hkey3 : parseStringBody (escapeJson (chars "files") ++ '"' :: ':' ::
        ('[' :: (joinWith (chars ",") ((f :: fs).map fileJsonStr) ++ ']' :: ',' ::
          '"' :: (escapeJson (chars "run") ++ '"' :: ':' ::
            ('n' :: 'u' :: 'l' :: 'l' :: '\x7d' :: rest))))) =
        some (chars "files", ':' ::
          ('[' :: (joinWith (chars ",") ((f :: fs).map fileJsonStr) ++ ']' :: ',' ::
            '"' :: (escapeJson (chars "run") ++ '"' :: ':' ::
              ('n' :: 'u' :: 'l' :: 'l' :: '\x7d' :: rest))))) :=
      parseStringBody_escape (chars "files") _
    have hval3 : parseValue (q + 5 * fs.length + 6)
        ('[' :: (joinWith (chars ",") ((f :: fs).map fileJsonStr) ++ ']' :: ',' ::
          '"' :: (escapeJson (chars "run") ++ '"' :: ':' ::
            ('n' :: 'u' :: 'l' :: 'l' :: '\x7d' :: rest)))) =
        some (Json.arr ((f :: fs).map fileToJson), ',' ::
          '"' :: (escapeJson (chars "run") ++ '"' :: ':' ::
            ('n' :: 'u' :: 'l' :: 'l' :: '\x7d' :: rest))) :=
      parseValue_filesArr q f fs _
    rw [parseFields_step_comma (q + 5 * fs.length + 6) _ _ _ _ _ hkey3 hval3,
      show q + 5 * fs.length + 6 = q + 5 * fs.length + 5 + 1 from rfl]
    have hkey4 : parseStringBody (escapeJson (chars "run") ++ '"' :: ':' ::
        ('n' :: 'u' :: 'l' :: 'l' :: '\x7d' :: rest)) =
        some (chars "run", ':' :: ('n' :: 'u' :: 'l' :: 'l' :: '\x7d' :: rest)) :=
      parseStringBody_escape (chars "run") _
    have hval4 : parseValue (q + 5 * fs.length + 5)
        ('n' :: 'u' :: 'l' :: 'l' :: '\x7d' :: rest) = some (Json.null, '\x7d' :: rest) :=
      parseValue_null (q + 5 * fs.length + 4) ('\x7d' :: rest)
    rw [parseFields_step_close (q + 5 * fs.length + 5) _ _ _ _ _ hkey4 hval4]
    simp [toJsonArtifact, hfiles, hrun]
  | some r =>
    have hshape : serializeArtifact a ++ rest =
        '\x7b' :: '"' :: (escapeJson (chars "artifact_type") ++ '"' :: ':' ::
          (strLitJson a.artifact_type.asString ++ ',' ::
            '"' :: (escapeJson (chars "language") ++ '"' :: ':' ::
              (strLitJson a.language.asString ++ ',' ::
                '"' :: (escapeJson (chars "files") ++ '"' :: ':' ::
                  ('[' :: (joinWith (chars ",") ((f :: fs).map fileJsonStr) ++ ']' :: ',' ::
                    '"' :: (escapeJson (chars "run") ++ '"' :: ':' ::
                      (strLitJson r ++ '\x7d' :: rest))))))))) := by
      rw [show serializeArtifact a =
          '\x7b' :: (serializeArtifactInner a ++ ['\x7d']) from rfl,
        show serializeArtifactInner a =
          chars "\"artifact_type\":" ++ strLitJson a.artifact_type.asString ++
            chars ",\"language\":" ++ strLitJson a.language.asString ++
            chars ",\"files\":[" ++ joinWith (chars ",") (a.files.map fileJsonStr) ++
            chars "],\"run\":" ++
            (match a.run with
              | none => chars "null"
              | some r => strLitJson r) from rfl,
        hfiles, hrun]
      simp only [List.append_assoc, List.cons_append, List.singleton_append,
        List.nil_append]
      rfl
    rw [hshape, show q + 5 * fs.length + 10 = q + 5 * fs.length + 9 + 1 from rfl,
      parseValue_obj_step (q + 5 * fs.length + 9),
      show q + 5 * fs.length + 9 = q + 5 * fs.length + 7 + 2 from rfl,
      parseFields_strField (q + 5 * fs.length + 7) (chars "artifact_type")
        a.artifact_type.asString _,
      show q + 5 * fs.length + 7 + 1 = q + 5 * fs.length + 6 + 2 from rfl,
      parseFields_strField (q + 5 * fs.length + 6) (chars "language")
        a.language.asString _]
    have hkey3 : parseStringBody (escapeJson (chars "files") ++ '"' :: ':' ::
        ('[' :: (joinWith (chars ",") ((f :: fs).map fileJsonStr) ++ ']' :: ',' ::
          '"' :: (escapeJson (chars "run") ++ '"' :: ':' ::
            (strLitJson r ++ '\x7d' :: rest))))) =
        some (chars "files", ':' ::
          ('[' :: (joinWith (chars ",") ((f :: fs).map fileJsonStr) ++ ']' :: ',' ::
            '"' :: (escapeJson (chars "run") ++ '"' :: ':' ::
              (strLitJson r ++ '\x7d' :: rest))))) :=
      parseStringBody_escape (chars "files") _
    have hval3 : parseValue (q + 5 * fs.length + 6)
        ('[' :: (joinWith (chars ",") ((f :: fs).map fileJsonStr) ++ ']' :: ',' ::
          '"' :: (escapeJson (chars "run") ++ '"' :: ':' ::
            (strLitJson r ++ '\x7d' :: rest)))) =
        some (Json.arr ((f :: fs).map fileToJson), ',' ::
          '"' :: (escapeJson (chars "run") ++ '"' :: ':' ::
            (strLitJson r ++ '\x7d' :: rest))) :=
      parseValue_filesArr q f fs _
    rw [parseFields_step_comma (q + 5 * fs.length + 6) _ _ _ _ _ hkey3 hval3,
      show q + 5 * fs.length + 6 = q + 5 * fs.length + 5 + 1 from rfl]
    have hkey4 : parseStringBody (escapeJson (chars "run") ++ '"' :: ':' ::
        (strLitJson r ++ '\x7d' :: rest)) =
        some (chars "run", ':' :: (strLitJson r ++ '\x7d' :: rest)) :=
      parseStringBody_escape (chars "run") _
    have hval4 : parseValue (q + 5 * fs.length + 5)
        (strLitJson r ++ '\x7d' :: rest) = some (Json.str r, '\x7d' :: rest) :=
      parseValue_strLit (q + 5 * fs.length + 4) r ('\x7d' :: rest)
    rw [parseFields_step_close (q + 5 * fs.length + 5) _ _ _ _ _ hkey4 hval4]
    simp [toJsonArtifact, hfiles, hrun]


/-- A serialized file is at least five characters long. -/
theorem fileJsonStr_len (f : ArtifactFile) : 5 ≤ (fileJsonStr f).length := by
  have h1 : (chars "\x7b\"path\":").length = 8 := rfl
  simp only [fileJsonStr, List.length_append, h1]
  omega

/-- Length lower bound for the serialized file list. -/
theorem join_files_len (fs : List ArtifactFile) : ∀ (f : ArtifactFile),
    5 * fs.length + 5 ≤ (joinWith (chars ",") ((f :: fs).map fileJsonStr)).length := by
  induction fs with
  | nil =>
    intro f
    have hj : joinWith (chars ",") ((f :: ([] : List ArtifactFile)).map fileJsonStr) =
        fileJsonStr f := rfl
    rw [hj]
    have h2 := fileJsonStr_len f
    simp only [List.length_nil]
    omega
  | cons g gs ih =>
    intro f
    have hj : joinWith (chars ",") ((f :: g :: gs).map fileJsonStr) =
        fileJsonStr f ++ chars "," ++ joinWith (chars ",") ((g :: gs).map fileJsonStr) := rfl
    rw [hj]
    have h2 := ih g
    have h3 : (chars ",").length = 1 := rfl
    have h4 := fileJsonStr_len f
    simp only [List.length_append, List.length_cons, h3]
    omega

/-- The serialized artifact is long enough to fuel its own parse. -/
theorem serialize_len (a : Artifact) (f : ArtifactFile) (fs : List ArtifactFile)
    (hfiles : a.files = f :: fs) : 5 * fs.length + 9 ≤ (serializeArtifact a).length := by
  have h0 : (serializeArtifact a).length = (serializeArtifactInner a).length + 2 := by
    rw [show serializeArtifact a = '\x7b' :: (serializeArtifactInner a ++ ['\x7d']) from rfl]
    simp
  have h1 : serializeArtifactInner a =
      chars "\"artifact_type\":" ++ strLitJson a.artifact_type.asString ++
        chars ",\"language\":" ++ strLitJson a.language.asString ++
        chars ",\"files\":[" ++ joinWith (chars ",") (a.files.map fileJsonStr) ++
        chars "],\"run\":" ++
        (match a.run with
          | none => chars "null"
          | some r => strLitJson r) := rfl
  have hjoin := join_files_len fs f
  rw [h0, h1, hfiles]
  have c1 : (chars "\"artifact_type\":").length = 16 := rfl
  have c2 : (chars ",\"language\":").length = 12 := rfl
  have c3 : (chars ",\"files\":[").length = 10 := rfl
  have c4 : (chars "],\"run\":").length = 8 := rfl
  simp only [List.length_append]
  omega

/-- `JSON.parse` of a serialized artifact yields its JSON value. -/
theorem parseJsonTop_serialize (a : Artifact) (f : ArtifactFile) (fs : List ArtifactFile)
    (hfiles : a.files = f :: fs) :
    parseJsonTop (serializeArtifact a) = some (toJsonArtifact a) := by
  have hlen := serialize_len a f fs hfiles
  have hq : (serializeArtifact a).length + 1 =
      (serializeArtifact a).length - (5 * fs.length + 9) + 5 * fs.length + 10 := by omega
  have hp := parseValue_serialize ((serializeArtifact a).length - (5 * fs.length + 9))
    a f fs hfiles []
  rw [List.append_nil] at hp
  unfold parseJsonTop
  rw [hq, hp]
  rfl

/-- A file value built from a schema file with a non-empty path passes the
per-file check. -/
theorem fileOkJs_toJson (g : ArtifactFile) (hg : g.path ≠ []) :
    fileOkJs (fileToJson g) = true := by
  have step : fileOkJs (fileToJson g) = (!g.path.isEmpty && true) := rfl
  rw [step]
  cases hp : g.path with
  | nil => exact absurd hp hg
  | cons c t => rfl

/-- The JSON value of a schema artifact with files passes validation. -/
theorem validate_toJson (a : Artifact) (f : ArtifactFile) (fs : List ArtifactFile)
    (hfiles : a.files = f :: fs) (hpaths : ∀ g ∈ a.files, g.path ≠ []) :
    validateArtifact (toJsonArtifact a) = some (toJsonArtifact a) := by
  have hAT : truthy (Json.str a.artifact_type.asString) = true := by
    cases a.artifact_type <;> rfl
  have hL : truthy (Json.str a.language.asString) = true := by
    cases a.language <;> rfl
  have step : validateArtifact (toJsonArtifact a) =
      (if truthy (Json.str a.artifact_type.asString) &&
          truthy (Json.str a.language.asString) && true then
        (if (a.files.map fileToJson).isEmpty then none
         else if (a.files.map fileToJson).all fileOkJs then some (toJsonArtifact a)
         else none)
      else none) := rfl
  rw [step, hAT, hL, hfiles]
  have hall : ((f :: fs).map fileToJson).all fileOkJs = true := by
    simp only [List.all_eq_true]
    intro x hx
    obtain ⟨g, hgmem, rfl⟩ := List.mem_map.mp hx
    exact fileOkJs_toJson g (hpaths g (by rw [hfiles]; exact hgmem))
  have hne : ((f :: fs).map fileToJson).isEmpty = false := rfl
  rw [hall, hne]
  rfl

/-- Whatever the validator accepts is the parsed value itself, its `files`
key holds a non-empty array, and every element passes the per-file check. -/
theorem validateArtifact_sound (v w : Json) (h : validateArtifact v = some w) :
    w = v ∧ ∃ items, jsGetD v (chars "files") = some (Json.arr items) ∧
      items ≠ [] ∧ items.all fileOkJs = true := by
  unfold validateArtifact at h
  cases v with
  | null => simp at h
  | bool b => simp [jsGetD, truthyOpt] at h
  | num q => simp [jsGetD, truthyOpt] at h
  | str s => simp [jsGetD, truthyOpt] at h
  | arr elems => simp [jsGetD, truthyOpt] at h
  | obj L =>
    have h2 : (if truthyOpt (jsGetD (Json.obj L) (chars "artifact_type")) &&
          truthyOpt (jsGetD (Json.obj L) (chars "language")) &&
          truthyOpt (jsGetD (Json.obj L) (chars "files")) then
        match jsGetD (Json.obj L) (chars "files") with
        | some (.arr items) =>
          if items.isEmpty then none
          else if items.all fileOkJs then some (Json.obj L) else none
        | _ => none
      else none) = some w := h
    clear h
    split at h2
    · split at h2
      · next items heq =>
        split at h2
        · simp at h2
        · next hempty =>
          split at h2
          · next hall =>
            exact ⟨(Option.some.inj h2).symm, items, heq, by simpa using hempty,
              by simpa using hall⟩
          · simp at h2
      · simp at h2
    · simp at h2


/-- `dropWhile` keeps an append whose head (or, if empty, the head of the
second part) is not accepted. -/
theorem dropWhile_append_head (p : Char → Bool) (u v : S)
    (hu : ∀ c ∈ u.take 1, p c = false) (hv : v.dropWhile p = v) :
    (u ++ v).dropWhile p = u ++ v := by
  cases u with
  | nil => simpa using hv
  | cons c t => exact dropWhile_cons_of_false _ (hu c (by simp))

/-- Trimming does not change a brace-delimited body wrapped in prose whose
first and last characters are not whitespace. -/
theorem trimJs_wrap (pre post u : S)
    (hpre : ∀ c ∈ pre.take 1, isJsWs c = false)
    (hpost : ∀ c ∈ post.reverse.take 1, isJsWs c = false) :
    trimJs (pre ++ ('\x7b' :: (u ++ ['\x7d'])) ++ post) =
      pre ++ ('\x7b' :: (u ++ ['\x7d'])) ++ post := by
  have h1 : (pre ++ ('\x7b' :: (u ++ ['\x7d'])) ++ post).dropWhile isJsWs =
      pre ++ ('\x7b' :: (u ++ ['\x7d'])) ++ post := by
    rw [List.append_assoc]
    exact dropWhile_append_head isJsWs pre _ hpre
      (dropWhile_cons_of_false _ (by decide))
  have hrev : (pre ++ ('\x7b' :: (u ++ ['\x7d'])) ++ post).reverse =
      post.reverse ++ (('\x7d' :: (u.reverse ++ ['\x7b'])) ++ pre.reverse) := by
    simp [List.reverse_append]
  have h2 : (pre ++ ('\x7b' :: (u ++ ['\x7d'])) ++ post).reverse.dropWhile isJsWs =
      (pre ++ ('\x7b' :: (u ++ ['\x7d'])) ++ post).reverse := by
    rw [hrev]
    exact dropWhile_append_head isJsWs post.reverse _ hpost
      (dropWhile_cons_of_false _ (by decide))
  show (((pre ++ ('\x7b' :: (u ++ ['\x7d'])) ++ post).dropWhile
      isJsWs).reverse.dropWhile isJsWs).reverse = _
  rw [h1, h2, List.reverse_reverse]

/-- Trimming does not change a brace-delimited string. -/
theorem trimJs_brace (u : S) :
    trimJs ('\x7b' :: (u ++ ['\x7d'])) = '\x7b' :: (u ++ ['\x7d']) := by
  have h := trimJs_wrap [] [] u (by simp) (by simp)
  simpa using h

/-- The fence regex cannot match a backtick-free string. -/
theorem fenceMatch_none (s : S) (h : ∀ c ∈ s, c ≠ '\x60') : fenceMatch s = none := by
  induction s with
  | nil => rfl
  | cons c t ih =>
    have hc : c ≠ '\x60' := h c (List.mem_cons_self c t)
    have hb : ('\x60' == c) = false := beq_eq_false_iff_ne.mpr (Ne.symm hc)
    have hpre : (chars "\x60\x60\x60").isPrefixOf (c :: t) = false := by
      have step : (chars "\x60\x60\x60").isPrefixOf (c :: t) =
          ('\x60' == c && (chars "\x60\x60").isPrefixOf t) := rfl
      rw [step, hb, Bool.false_and]
    have htry : fenceTryAt (c :: t) = none := by
      unfold fenceTryAt litStrip
      rw [hpre]
      rfl
    have step2 : fenceMatch (c :: t) =
        (match fenceTryAt (c :: t) with
          | some grp => some grp
          | none => fenceMatch t) := rfl
    rw [step2, htry]
    exact ih (fun x hx => h x (List.mem_cons_of_mem c hx))

/-- `indexOf` on an append whose first part misses the character. -/
theorem idxOfChar_append_shift (c : Char) (u v : S) (h : ∀ x ∈ u, x ≠ c) :
    idxOfChar c (u ++ v) = (idxOfChar c v).map (· + u.length) := by
  induction u with
  | nil => cases hi : idxOfChar c v <;> simp [hi]
  | cons d t ih =>
    have hd : d ≠ c := h d (List.mem_cons_self d t)
    have step : idxOfChar c ((d :: t) ++ v) =
        (if d = c then some 0 else (idxOfChar c (t ++ v)).map (· + 1)) := rfl
    rw [step, if_neg hd, ih (fun x hx => h x (List.mem_cons_of_mem d hx))]
    cases hi : idxOfChar c v <;> simp [hi, Nat.add_assoc]

/-- `indexOf` finds an opening brace at the head. -/
theorem idxOfChar_brace_head (u : S) : idxOfChar '\x7b' ('\x7b' :: u) = some 0 := by
  simp [idxOfChar]

/-- `lastIndexOf` finds the closing brace of a brace-delimited string. -/
theorem lastIdxOfChar_brace (u : S) :
    lastIdxOfChar '\x7d' ('\x7b' :: (u ++ ['\x7d'])) = some (u.length + 1) := by
  show (idxOfChar '\x7d' ('\x7b' :: (u ++ ['\x7d'])).reverse).map
      (fun i => ('\x7b' :: (u ++ ['\x7d'])).length - 1 - i) = some (u.length + 1)
  have hrev : ('\x7b' :: (u ++ ['\x7d'])).reverse = '\x7d' :: (u.reverse ++ ['\x7b']) := by
    simp
  rw [hrev]
  have h0 : idxOfChar '\x7d' ('\x7d' :: (u.reverse ++ ['\x7b'])) = some 0 := by
    simp [idxOfChar]
  rw [h0]
  show some (('\x7b' :: (u ++ ['\x7d'])).length - 1 - 0) = some (u.length + 1)
  have harith : ('\x7b' :: (u ++ ['\x7d'])).length - 1 - 0 = u.length + 1 := by
    simp only [List.length_cons, List.length_append, List.length_nil]
    omega
  rw [harith]

/-- The brace-to-brace slice of a brace-delimited string is the whole
string. -/
theorem sliceJs_brace (u : S) :
    sliceJs ('\x7b' :: (u ++ ['\x7d'])) 0 (u.length + 1 + 1) = '\x7b' :: (u ++ ['\x7d']) := by
  show (('\x7b' :: (u ++ ['\x7d'])).drop 0).take (u.length + 1 + 1 - 0) = _
  rw [List.drop_zero]
  have h1 : u.length + 1 + 1 - 0 = ('\x7b' :: (u ++ ['\x7d'])).length := by
    simp only [List.length_cons, List.length_append, List.length_nil]
    omega
  rw [h1, List.take_length]

/-- `extractJson` when the fence regex does not match the trimmed input. -/
theorem extractJson_eq (s t0 : S) (h0 : trimJs s = t0) (hf : fenceMatch t0 = none) :
    extractJson s =
      (match idxOfChar '\x7b' t0, lastIdxOfChar '\x7d' t0 with
        | some i, some j => sliceJs t0 i (j + 1)
        | _, _ => t0) := by
  simp only [extractJson, h0, hf]

/-- `extractJson` when the fence regex matches the trimmed input. -/
theorem extractJson_eq_some (s t0 grp : S) (h0 : trimJs s = t0)
    (hf : fenceMatch t0 = some grp) :
    extractJson s =
      (match idxOfChar '\x7b' (trimJs grp), lastIdxOfChar '\x7d' (trimJs grp) with
        | some i, some j => sliceJs (trimJs grp) i (j + 1)
        | _, _ => trimJs grp) := by
  simp only [extractJson, h0, hf]

/-- Extraction leaves a backtick-free brace-delimited string unchanged. -/
theorem extractJson_brace (u : S) (h : ∀ c ∈ '\x7b' :: (u ++ ['\x7d']), c ≠ '\x60') :
    extractJson ('\x7b' :: (u ++ ['\x7d'])) = '\x7b' :: (u ++ ['\x7d']) := by
  rw [extractJson_eq _ _ (trimJs_brace u) (fenceMatch_none _ h),
    idxOfChar_brace_head, lastIdxOfChar_brace]
  exact sliceJs_brace u


/-- `indexOf` finds the opening brace after a brace-free prefix. -/
theorem idxOfChar_wrap (pre post u : S) (hpre : ∀ c ∈ pre, c ≠ '\x7b') :
    idxOfChar '\x7b' (pre ++ ('\x7b' :: (u ++ ['\x7d'])) ++ post) = some pre.length := by
  rw [List.append_assoc, idxOfChar_append_shift _ pre _ hpre]
  have h0 : idxOfChar '\x7b' (('\x7b' :: (u ++ ['\x7d'])) ++ post) = some 0 :=
    idxOfChar_brace_head ((u ++ ['\x7d']) ++ post)
  rw [h0]
  simp

/-- `lastIndexOf` finds the closing brace before a brace-free suffix. -/
theorem lastIdxOfChar_wrap (pre post u : S) (hpost : ∀ c ∈ post, c ≠ '\x7d') :
    lastIdxOfChar '\x7d' (pre ++ ('\x7b' :: (u ++ ['\x7d'])) ++ post) =
      some (pre.length + u.length + 1) := by
  show (idxOfChar '\x7d' (pre ++ ('\x7b' :: (u ++ ['\x7d'])) ++ post).reverse).map
      (fun i => (pre ++ ('\x7b' :: (u ++ ['\x7d'])) ++ post).length - 1 - i) =
    some (pre.length + u.length + 1)
  have hrev : (pre ++ ('\x7b' :: (u ++ ['\x7d'])) ++ post).reverse =
      post.reverse ++ (('\x7d' :: (u.reverse ++ ['\x7b'])) ++ pre.reverse) := by
    simp [List.reverse_append]
  rw [hrev, idxOfChar_append_shift _ post.reverse _
    (fun x hx => hpost x (List.mem_reverse.mp hx))]
  have h0 : idxOfChar '\x7d' (('\x7d' :: (u.reverse ++ ['\x7b'])) ++ pre.reverse) = some 0 := by
    simp [List.cons_append, idxOfChar]
  rw [h0]
  show some ((pre ++ ('\x7b' :: (u ++ ['\x7d'])) ++ post).length - 1 -
    (0 + post.reverse.length)) = some (pre.length + u.length + 1)
  have harith : (pre ++ ('\x7b' :: (u ++ ['\x7d'])) ++ post).length - 1 -
      (0 + post.reverse.length) = pre.length + u.length + 1 := by
    simp only [List.length_append, List.length_cons, List.length_nil, List.length_reverse]
    omega
  rw [harith]

/-- The brace-to-brace slice recovers the wrapped body. -/
theorem sliceJs_wrap (pre post u : S) :
    sliceJs (pre ++ ('\x7b' :: (u ++ ['\x7d'])) ++ post) pre.length
      (pre.length + u.length + 1 + 1) = '\x7b' :: (u ++ ['\x7d']) := by
  show ((pre ++ ('\x7b' :: (u ++ ['\x7d'])) ++ post).drop pre.length).take
      (pre.length + u.length + 1 + 1 - pre.length) = _
  rw [List.append_assoc, List.drop_left]
  have h1 : pre.length + u.length + 1 + 1 - pre.length = u.length + 1 + 1 := by omega
  rw [h1]
  have h2 : ('\x7b' :: (u ++ ['\x7d'])).length = u.length + 1 + 1 := by
    simp only [List.length_cons, List.length_append, List.length_nil]
  rw [← h2, List.take_left]

/-- Extraction recovers a brace-delimited body from surrounding prose. -/
theorem extractJson_wrap (pre post u : S)
    (hpre1 : ∀ c ∈ pre.take 1, isJsWs c = false)
    (hpost1 : ∀ c ∈ post.reverse.take 1, isJsWs c = false)
    (hpreb : ∀ c ∈ pre, c ≠ '\x7b')
    (hpostb : ∀ c ∈ post, c ≠ '\x7d')
    (hticks : ∀ c ∈ pre ++ ('\x7b' :: (u ++ ['\x7d'])) ++ post, c ≠ '\x60') :
    extractJson (pre ++ ('\x7b' :: (u ++ ['\x7d'])) ++ post) = '\x7b' :: (u ++ ['\x7d']) := by
  rw [extractJson_eq _ _ (trimJs_wrap pre post u hpre1 hpost1) (fenceMatch_none _ hticks),
    idxOfChar_wrap pre post u hpreb, lastIdxOfChar_wrap pre post u hpostb]
  exact sliceJs_wrap pre post u

/-- Splitting at the closing fence of a backtick-free body. -/
theorem splitAtSub_ticks (w : S) (hw : ∀ c ∈ w, c ≠ '\x60') :
    splitAtSub (chars "\x60\x60\x60") (w ++ chars "\x60\x60\x60") = some (w, []) := by
  induction w with
  | nil => rfl
  | cons c t ih =>
    have hc : c ≠ '\x60' := hw c (List.mem_cons_self c t)
    have hb : ('\x60' == c) = false := beq_eq_false_iff_ne.mpr (Ne.symm hc)
    have hnp : (chars "\x60\x60\x60").isPrefixOf (c :: (t ++ chars "\x60\x60\x60")) = false := by
      have step : (chars "\x60\x60\x60").isPrefixOf (c :: (t ++ chars "\x60\x60\x60")) =
          ('\x60' == c && (chars "\x60\x60").isPrefixOf (t ++ chars "\x60\x60\x60")) := rfl
      rw [step, hb, Bool.false_and]
    have step2 : splitAtSub (chars "\x60\x60\x60") ((c :: t) ++ chars "\x60\x60\x60") =
        (if (chars "\x60\x60\x60").isPrefixOf (c :: (t ++ chars "\x60\x60\x60")) then
          some ([], (c :: (t ++ chars "\x60\x60\x60")).drop (chars "\x60\x60\x60").length)
         else (splitAtSub (chars "\x60\x60\x60") (t ++ chars "\x60\x60\x60")).map
           (fun r => (c :: r.1, r.2))) := rfl
    rw [step2, hnp, ih (fun x hx => hw x (List.mem_cons_of_mem c hx))]
    rfl

/-- The fence regex applied at the start of a fenced backtick-free body. -/
theorem fenceTryAt_fenced (u : S) (hu : ∀ c ∈ u, c ≠ '\x60') :
    fenceTryAt (chars "\x60\x60\x60json\n" ++
        (('\x7b' :: (u ++ ['\x7d'])) ++ chars "\n\x60\x60\x60")) =
      some (('\x7b' :: (u ++ ['\x7d'])) ++ ['\n']) := by
  have hmem : ∀ c ∈ ('\x7b' :: (u ++ ['\x7d'])) ++ ['\n'], c ≠ '\x60' := by
    intro x hx
    rcases List.mem_append.mp hx with h1 | h1
    · rcases List.mem_cons.mp h1 with h2 | h2
      · subst h2; decide
      · rcases List.mem_append.mp h2 with h3 | h3
        · exact hu x h3
        · have : x = '\x7d' := by simpa using h3
          subst this; decide
    · have : x = '\n' := by simpa using h1
      subst this; decide
  show (match splitAtSub (chars "\x60\x60\x60")
      ((chars "\n" ++ (('\x7b' :: (u ++ ['\x7d'])) ++ chars "\n\x60\x60\x60")).dropWhile
        isJsWs) with
    | some r => some r.1
    | none => none) = some (('\x7b' :: (u ++ ['\x7d'])) ++ ['\n'])
  rw [show (chars "\n" ++ (('\x7b' :: (u ++ ['\x7d'])) ++ chars "\n\x60\x60\x60")).dropWhile
      isJsWs = ('\x7b' :: (u ++ ['\x7d'])) ++ chars "\n\x60\x60\x60" from rfl]
  rw [show ('\x7b' :: (u ++ ['\x7d'])) ++ chars "\n\x60\x60\x60" =
      (('\x7b' :: (u ++ ['\x7d'])) ++ ['\n']) ++ chars "\x60\x60\x60" from by
    rw [List.append_assoc]; rfl]
  rw [splitAtSub_ticks (('\x7b' :: (u ++ ['\x7d'])) ++ ['\n']) hmem]

/-- The fence regex matches a fenced backtick-free body at the start. -/
theorem fenceMatch_fenced (u : S) (hu : ∀ c ∈ u, c ≠ '\x60') :
    fenceMatch (chars "\x60\x60\x60json\n" ++
        (('\x7b' :: (u ++ ['\x7d'])) ++ chars "\n\x60\x60\x60")) =
      some (('\x7b' :: (u ++ ['\x7d'])) ++ ['\n']) := by
  have step : fenceMatch (chars "\x60\x60\x60json\n" ++
      (('\x7b' :: (u ++ ['\x7d'])) ++ chars "\n\x60\x60\x60")) =
      (match fenceTryAt (chars "\x60\x60\x60json\n" ++
          (('\x7b' :: (u ++ ['\x7d'])) ++ chars "\n\x60\x60\x60")) with
        | some grp => some grp
        | none => fenceMatch (chars "\x60\x60json\n" ++
            (('\x7b' :: (u ++ ['\x7d'])) ++ chars "\n\x60\x60\x60"))) := rfl
  rw [step, fenceTryAt_fenced u hu]

/-- Trimming the captured fence group drops the trailing newline. -/
theorem trimJs_group (u : S) :
    trimJs (('\x7b' :: (u ++ ['\x7d'])) ++ ['\n']) = '\x7b' :: (u ++ ['\x7d']) := by
  show (((('\x7b' :: (u ++ ['\x7d'])) ++ ['\n']).dropWhile isJsWs).reverse.dropWhile
      isJsWs).reverse = _
  have h1 : (('\x7b' :: (u ++ ['\x7d'])) ++ ['\n']).dropWhile isJsWs =
      ('\x7b' :: (u ++ ['\x7d'])) ++ ['\n'] :=
    dropWhile_cons_of_false _ (by decide)
  rw [h1]
  have h2 : ((('\x7b' :: (u ++ ['\x7d'])) ++ ['\n']).reverse) =
      '\n' :: ('\x7d' :: (u.reverse ++ ['\x7b'])) := by
    simp
  rw [h2]
  have h3 : ('\n' :: ('\x7d' :: (u.reverse ++ ['\x7b']))).dropWhile isJsWs =
      '\x7d' :: (u.reverse ++ ['\x7b']) := by
    have h4 : ('\n' :: ('\x7d' :: (u.reverse ++ ['\x7b']))).dropWhile isJsWs =
        ('\x7d' :: (u.reverse ++ ['\x7b'])).dropWhile isJsWs := by
      have hws : isJsWs '\n' = true := by decide
      simp [List.dropWhile_cons, hws]
    rw [h4]
    exact dropWhile_cons_of_false _ (by decide)
  rw [h3]
  simp

/-- Extraction recovers a backtick-free brace-delimited body from a markdown
fence. -/
theorem extractJson_fenced (u : S) (hu : ∀ c ∈ u, c ≠ '\x60') :
    extractJson (chars "\x60\x60\x60json\n" ++
        (('\x7b' :: (u ++ ['\x7d'])) ++ chars "\n\x60\x60\x60")) =
      '\x7b' :: (u ++ ['\x7d']) := by
  have htrim : trimJs (chars "\x60\x60\x60json\n" ++
      (('\x7b' :: (u ++ ['\x7d'])) ++ chars "\n\x60\x60\x60")) =
      chars "\x60\x60\x60json\n" ++ (('\x7b' :: (u ++ ['\x7d'])) ++ chars "\n\x60\x60\x60") := by
    have h := trimJs_wrap (chars "\x60\x60\x60json\n") (chars "\n\x60\x60\x60") u
      (by decide) (by decide)
    rw [List.append_assoc] at h
    exact h
  rw [extractJson_eq_some _ _ _ htrim (fenceMatch_fenced u hu), trimJs_group u,
    idxOfChar_brace_head, lastIdxOfChar_brace]
  exact sliceJs_brace u

/-- Extraction leaves a backtick-free serialized artifact unchanged. -/
theorem extractJson_serialize (a : Artifact)
    (hticks : ∀ c ∈ serializeArtifact a, c ≠ '\x60') :
    extractJson (serializeArtifact a) = serializeArtifact a := by
  have hs : serializeArtifact a = '\x7b' :: (serializeArtifactInner a ++ ['\x7d']) := rfl
  rw [hs] at hticks ⊢
  exact extractJson_brace _ hticks


/-! ## C3 — parseArtifact validation (corrected) -/

/-- C3 counterexample: `parseArtifact` accepts a file whose `path` is the
boolean `true` — the check `!file.path` only tests truthiness, so the
returned artifact has a non-string path, contradicting the claim that every
returned file has a string path. -/
theorem parseArtifact_accepts_truthy_path :
    parseArtifact truthyPathInput = some truthyPathJson ∧
      isStrJson (jsGetD truthyPathFileJson (chars "path")) = false := ⟨rfl, rfl⟩

/-- C3: whenever `parseArtifact` succeeds, the returned value has a `files`
key holding a non-empty array whose every element has a truthy `path` and a
string `content` (`fileOkJs`); `parseArtifact` itself is total, so it never
throws.  (The stronger spec claim that paths are strings is refuted by the
counterexample.) -/
theorem parseArtifact_sound (s : S) (w : Json) (h : parseArtifact s = some w) :
    ∃ items, jsGetD w (chars "files") = some (Json.arr items) ∧ items ≠ [] ∧
      items.all fileOkJs = true := by
  unfold parseArtifact at h
  cases hp : parseJsonTop (extractJson s) with
  | none => rw [hp] at h; simp at h
  | some v =>
    rw [hp] at h
    have h2 : validateArtifact v = some w := h
    obtain ⟨hwv, items, heq, hne, hall⟩ := validateArtifact_sound v w h2
    exact ⟨items, by rw [hwv]; exact heq, hne, hall⟩

/-- Witness for C3 at a concrete successful parse. -/
theorem parseArtifact_sound_witness :
    ∃ items, jsGetD (toJsonArtifact simpleArtifact) (chars "files") =
        some (Json.arr items) ∧ items ≠ [] ∧ items.all fileOkJs = true :=
  parseArtifact_sound (serializeArtifact simpleArtifact) (toJsonArtifact simpleArtifact) rfl

/-! ## C4 — serialization round trip (corrected) -/

/-- C4 counterexample: a schema-valid artifact whose file content contains a
markdown fence does not round trip — the fence regex fires inside the JSON
string and extraction destroys the document, so `parseArtifact` fails. -/
theorem serialize_fence_content_breaks_roundtrip :
    parseArtifact (serializeArtifact fenceContentArtifact) = none := rfl

/-- C4: the round trip holds for every schema artifact with at least one
file, truthy (non-empty) file paths, and no backtick anywhere in its
serialization: `parseArtifact` recovers exactly the serialized JSON value,
with the same artifact type, language, file paths, contents, order, and run
command. -/
theorem parseArtifact_serialize_roundtrip (a : Artifact) (f : ArtifactFile)
    (fs : List ArtifactFile) (hfiles : a.files = f :: fs)
    (hpaths : ∀ g ∈ a.files, g.path ≠ [])
    (hticks : ∀ c ∈ serializeArtifact a, c ≠ '\x60') :
    parseArtifact (serializeArtifact a) = some (toJsonArtifact a) := by
  unfold parseArtifact
  rw [extractJson_serialize a hticks, parseJsonTop_serialize a f fs hfiles]
  exact validate_toJson a f fs hfiles hpaths

/-- Witness for C4 at a concrete artifact. -/
theorem parseArtifact_serialize_roundtrip_witness :
    parseArtifact (serializeArtifact simpleArtifact) = some (toJsonArtifact simpleArtifact) :=
  parseArtifact_serialize_roundtrip simpleArtifact ⟨chars "main.py", chars "print(1)"⟩ []
    rfl (by decide) (by decide)

/-! ## C5 — fence and prose tolerance (corrected) -/

/-- C5 counterexample: the same valid JSON parses successfully bare but
fails when preceded by prose containing an opening brace — the first-brace
slice then starts inside the prose, so the results differ. -/
theorem prose_brace_changes_result :
    parseArtifact (serializeArtifact simpleArtifact) =
        some (toJsonArtifact simpleArtifact) ∧
      parseArtifact (chars "Sure! \x7b " ++ serializeArtifact simpleArtifact) = none :=
  ⟨rfl, rfl⟩

/-- C5: for a brace-delimited body, surrounding prose (not starting or
ending with whitespace, with no opening brace before, no closing brace
after, and no backticks) and markdown fencing both leave the result of
`parseArtifact` unchanged.  (Arbitrary prose is refuted by the
counterexample: a brace inside the prose changes the result.) -/
theorem parseArtifact_wrap_invariant (pre post u : S)
    (hpre1 : ∀ c ∈ pre.take 1, isJsWs c = false)
    (hpost1 : ∀ c ∈ post.reverse.take 1, isJsWs c = false)
    (hpreb : ∀ c ∈ pre, c ≠ '\x7b')
    (hpostb : ∀ c ∈ post, c ≠ '\x7d')
    (hticks : ∀ c ∈ pre ++ ('\x7b' :: (u ++ ['\x7d'])) ++ post, c ≠ '\x60') :
    parseArtifact (pre ++ ('\x7b' :: (u ++ ['\x7d'])) ++ post) =
        parseArtifact ('\x7b' :: (u ++ ['\x7d'])) ∧
      parseArtifact (chars "\x60\x60\x60json\n" ++
          (('\x7b' :: (u ++ ['\x7d'])) ++ chars "\n\x60\x60\x60")) =
        parseArtifact ('\x7b' :: (u ++ ['\x7d'])) := by
  have humem : ∀ c ∈ u, c ≠ '\x60' := by
    intro x hx
    exact hticks x (List.mem_append.mpr (Or.inl (List.mem_append.mpr (Or.inr
      (List.mem_cons_of_mem _ (List.mem_append.mpr (Or.inl hx)))))))
  have hbare : extractJson ('\x7b' :: (u ++ ['\x7d'])) = '\x7b' :: (u ++ ['\x7d']) := by
    apply extractJson_brace
    intro x hx
    exact hticks x (List.mem_append.mpr (Or.inl (List.mem_append.mpr (Or.inr hx))))
  constructor
  · unfold parseArtifact
    rw [extractJson_wrap pre post u hpre1 hpost1 hpreb hpostb hticks, hbare]
  · unfold parseArtifact
    rw [extractJson_fenced u humem, hbare]

/-- Witness for C5 at concrete prose and body. -/
theorem parseArtifact_wrap_invariant_witness :
    (parseArtifact (chars "Sure: " ++ ('\x7b' :: (chars "x" ++ ['\x7d'])) ++ chars " ok") =
        parseArtifact ('\x7b' :: (chars "x" ++ ['\x7d']))) ∧
      parseArtifact (chars "\x60\x60\x60json\n" ++
          (('\x7b' :: (chars "x" ++ ['\x7d'])) ++ chars "\n\x60\x60\x60")) =
        parseArtifact ('\x7b' :: (chars "x" ++ ['\x7d'])) :=
  parseArtifact_wrap_invariant (chars "Sure: ") (chars " ok") (chars "x")
    (by decide) (by decide) (by decide) (by decide) (by decide)


/-! ## C7 — external dependencies short-circuit into the warning page -/

/-- C7: for the React artifact with no HTML file whose source imports
`framer-motion`, the compiled document names `framer-motion` (in the
warning block) and contains no script invoking the component render call —
the component is never rendered. -/
theorem react_unsatisfiable_dependency_warning :
    containsSub (chars "framer-motion") (generatePreviewHtml framerArtifact) = true ∧
    containsSub (chars "root.render(React.createElement")
      (generatePreviewHtml framerArtifact) = false := by
  constructor
  · decide
  · decide

/-! ## C8 — output sanitization (corrected) -/

/-- C8 counterexample: `generatePreviewHtml` itself does not strip the
dangerous tags — for this HTML artifact the returned document still
contains a script tag with a `file://` source (the `CodeCanvas` consumer
renders exactly this unsanitized output). -/
theorem preview_output_keeps_file_script :
    containsFileScriptTag (generatePreviewHtml fileScriptArtifact) = true := by
  decide

/-- Case-insensitive comparison with `<` only succeeds on `<`. -/
theorem eqIC_lt_false {c : Char} (h : c ≠ '<') : eqIC '<' c = false := by
  have h2 : ('<' = c) = False := by
    simp [eq_comm]
    exact h
  simp [eqIC, isAsciiAlpha, h2]

/-- The script pattern can only match at a `<`. -/
theorem matchScriptAt_gate {c : Char} (s : S) (h : c ≠ '<') :
    matchScriptAt (c :: s) = none := by
  have hcs : chars "<script" = '<' :: chars "script" := rfl
  unfold matchScriptAt
  rw [hcs]
  simp [ciStrip, eqIC_lt_false h]

/-- The meta pattern can only match at a `<`. -/
theorem matchMetaAt_gate {c : Char} (s : S) (h : c ≠ '<') :
    matchMetaAt (c :: s) = none := by
  have hcs : chars "<meta" = '<' :: chars "meta" := rfl
  unfold matchMetaAt
  rw [hcs]
  simp [ciStrip, eqIC_lt_false h]

/-- A non-matching position is kept by the removal driver. -/
theorem sweep_skip (m : S → Option Nat) (c : Char) (rest : S) (h : m (c :: rest) = none) :
    sweep m (c :: rest) = c :: sweep m rest := by
  rw [sweep]
  simp [h]

/-- The removal driver passes over a region free of `<` untouched, for a
`<`-gated pattern. -/
theorem sweep_ltfree (m : S → Option Nat)
    (gate : ∀ (c : Char) (s : S), c ≠ '<' → m (c :: s) = none)
    (pre : S) (hpre : ∀ c ∈ pre, c ≠ '<') (rest : S) :
    sweep m (pre ++ rest) = pre ++ sweep m rest := by
  induction pre with
  | nil => rfl
  | cons p ps ih =>
    have hp : p ≠ '<' := hpre p (by simp)
    rw [List.cons_append, sweep_skip m p (ps ++ rest) (gate p _ hp),
      ih (fun c hc => hpre c (by simp [hc]))]
    rfl

/-- The removal driver maps the empty string to itself. -/
theorem sweep_nil (m : S → Option Nat) : sweep m [] = [] := by
  rw [sweep]

/-- A string free of `<` is left unchanged by the removal driver. -/
theorem sweep_ltfree_id (m : S → Option Nat)
    (gate : ∀ (c : Char) (s : S), c ≠ '<' → m (c :: s) = none)
    (s : S) (hs : ∀ c ∈ s, c ≠ '<') :
    sweep m s = s := by
  have h := sweep_ltfree m gate s hs []
  simpa [sweep_nil] using h

/-- The script matcher consumes exactly the concrete `file://` script tag,
whatever follows it. -/
theorem matchScriptAt_tag (X : S) :
    matchScriptAt (fileScriptTagEx ++ X) = some 29 := rfl

/-- The script matcher rejects the meta-refresh tag. -/
theorem matchScriptAt_on_meta (X : S) :
    matchScriptAt (metaRefreshTagEx ++ X) = none := rfl

/-- The meta matcher consumes exactly the concrete meta-refresh tag,
whatever follows it. -/
theorem matchMetaAt_tag (X : S) :
    matchMetaAt (metaRefreshTagEx ++ X) = some 27 := rfl

/-- Removing the script pattern at the concrete script tag continues right
after the tag. -/
theorem sweep_script_tag (X : S) :
    sweep matchScriptAt (fileScriptTagEx ++ X) = sweep matchScriptAt X := by
  have h1 : matchScriptAt ('<' :: (chars "script src=\"file://evil.js\">" ++ X)) = some 29 :=
    matchScriptAt_tag X
  have h2 : fileScriptTagEx ++ X = '<' :: (chars "script src=\"file://evil.js\">" ++ X) := rfl
  rw [h2, sweep]
  rw [h1]
  have h3 : (chars "script src=\"file://evil.js\">" ++ X).drop 28 = X := by
    rw [show (28 : Nat) = (chars "script src=\"file://evil.js\">").length from rfl]
    exact List.drop_left _ _
  simp only [h3]

/-- Removing the meta pattern at the concrete meta tag continues right
after the tag. -/
theorem sweep_meta_tag (X : S) :
    sweep matchMetaAt (metaRefreshTagEx ++ X) = sweep matchMetaAt X := by
  have h1 : matchMetaAt ('<' :: (chars "meta http-equiv=\"refresh\">" ++ X)) = some 27 :=
    matchMetaAt_tag X
  have h2 : metaRefreshTagEx ++ X = '<' :: (chars "meta http-equiv=\"refresh\">" ++ X) := rfl
  rw [h2, sweep]
  rw [h1]
  have h3 : (chars "meta http-equiv=\"refresh\">" ++ X).drop 26 = X := by
    rw [show (26 : Nat) = (chars "meta http-equiv=\"refresh\">").length from rfl]
    exact List.drop_left _ _
  simp only [h3]

/-- The script pass steps over the meta tag unharmed. -/
theorem sweep_script_over_meta (X : S) :
    sweep matchScriptAt (metaRefreshTagEx ++ X) =
      metaRefreshTagEx ++ sweep matchScriptAt X := by
  have hnone : matchScriptAt ('<' :: (chars "meta http-equiv=\"refresh\">" ++ X)) = none :=
    matchScriptAt_on_meta X
  have h2 : metaRefreshTagEx ++ X = '<' :: (chars "meta http-equiv=\"refresh\">" ++ X) := rfl
  rw [h2, sweep_skip _ _ _ hnone,
    sweep_ltfree matchScriptAt (fun c s h => matchScriptAt_gate s h)
      (chars "meta http-equiv=\"refresh\">") (by decide) X]
  rfl

/-- C8 amended: the separate `sanitizeHtml` function — applied only on the
`PreviewPanel` render path, not inside the compiler — does strip a
`file://` script tag and a meta-refresh tag from a document whose
surrounding text contains no `<`. -/
theorem sanitizeHtml_strips_file_script_and_meta_refresh
    (pre mid post : S) (hpre : ∀ c ∈ pre, c ≠ '<') (hmid : ∀ c ∈ mid, c ≠ '<')
    (hpost : ∀ c ∈ post, c ≠ '<') :
    sanitizeHtml (pre ++ fileScriptTagEx ++ mid ++ metaRefreshTagEx ++ post) =
      pre ++ mid ++ post := by
  have gateS : ∀ (c : Char) (s : S), c ≠ '<' → matchScriptAt (c :: s) = none :=
    fun c s h => matchScriptAt_gate s h
  have gateM : ∀ (c : Char) (s : S), c ≠ '<' → matchMetaAt (c :: s) = none :=
    fun c s h => matchMetaAt_gate s h
  have hassoc : pre ++ fileScriptTagEx ++ mid ++ metaRefreshTagEx ++ post =
      pre ++ (fileScriptTagEx ++ (mid ++ (metaRefreshTagEx ++ post))) := by
    simp [List.append_assoc]
  unfold sanitizeHtml
  rw [hassoc, sweep_ltfree matchScriptAt gateS pre hpre, sweep_script_tag,
    sweep_ltfree matchScriptAt gateS mid hmid, sweep_script_over_meta,
    sweep_ltfree_id matchScriptAt gateS post hpost]
  rw [show pre ++ (mid ++ (metaRefreshTagEx ++ post)) =
    (pre ++ mid) ++ (metaRefreshTagEx ++ post) by simp [List.append_assoc]]
  rw [sweep_ltfree matchMetaAt gateM (pre ++ mid)
    (fun c hc => by rcases List.mem_append.mp hc with h | h
                    exacts [hpre c h, hmid c h]) _,
    sweep_meta_tag, sweep_ltfree_id matchMetaAt gateM post hpost]

/-- Witness for C8's amended theorem on a concrete document. -/
theorem sanitizeHtml_strips_witness :
    sanitizeHtml (chars "aaa" ++ fileScriptTagEx ++ chars "bbb" ++ metaRefreshTagEx ++
      chars "ccc") = chars "aaa" ++ chars "bbb" ++ chars "ccc" :=
  sanitizeHtml_strips_file_script_and_meta_refresh (chars "aaa") (chars "bbb") (chars "ccc")
    (by decide) (by decide) (by decide)

/-! ## C10 — react artifacts with an HTML file (corrected) -/

/-- C10 counterexample: for a react artifact whose HTML file has empty
content, the compiler does not return that content verbatim (the empty
string is falsy, so the passthrough branch is skipped and a full CDN
document is generated instead). -/
theorem react_empty_html_not_verbatim :
    generatePreviewHtml emptyHtmlReactArtifact ≠ [] := by
  decide

/-- C10 amended: for every artifact with language `react` whose first
`.html` file has non-empty content, `generatePreviewHtml` returns that
file's content verbatim — no CSS injection, no import rewriting, no export
stripping, no hook auto-binding, and no external-dependency warning — even
when the JSX source imports external npm packages. -/
theorem react_html_passthrough (a : Artifact) (hf : ArtifactFile)
    (hlang : a.language = ArtifactLanguage.react)
    (hfind : a.files.find? (fun f => hasSuffix f.path (chars ".html")) = some hf)
    (hne : hf.content ≠ []) :
    generatePreviewHtml a = hf.content := by
  unfold generatePreviewHtml
  simp only [hlang, hfind, if_pos]
  unfold generateReactPreview
  have ht : truthyOptStr (some hf.content) = true := by
    simp [truthyOptStr, List.isEmpty_iff]
    exact hne
  have hmap : Option.map (fun f => f.content) (some hf) = some hf.content := rfl
  rw [hmap]
  simp [ht]

/-- Witness for C10's amended theorem: the HTML file's content comes back
verbatim although the JSX file imports `framer-motion`. -/
theorem react_html_passthrough_witness :
    generatePreviewHtml htmlReactArtifact = chars "<h1>ok</h1>" :=
  react_html_passthrough htmlReactArtifact
    ⟨chars "index.html", chars "<h1>ok</h1>"⟩ rfl (by decide) (by decide)

/-- Witness for C6's amended theorem at a concrete python artifact. -/
theorem executed_code_first_file_and_runtime_mapping_witness :
    (∃ f rest, pythonArtifact.files = f :: rest ∧ chars "print(1)" = f.content ∧
      chars "python" = e2bLang pythonArtifact.language) ∧
    (∀ r, executeInSandbox oracleAllOk (pythonArtifact.setRun r) =
        executeInSandbox oracleAllOk pythonArtifact ∧
      streamRun oracleAllOk (pythonArtifact.setRun r) =
        streamRun oracleAllOk pythonArtifact) :=
  executed_code_first_file_and_runtime_mapping oracleAllOk pythonArtifact
    (chars "print(1)") (chars "python") (Or.inl (by decide))

end QueryMate
